import Mathlib

/-!
Verification of the yogaboard input stack: the modifier-state tracker, the
touchpad gesture recognition engine, the virtual touchpad device queue and
the device worker lifecycle, shallowly embedded from the Python sources.
Coordinates, timestamps and sensitivities are modelled as exact rationals;
Python `int()` truncation toward zero is modelled by `itrunc`.
-/

namespace Yogaboard

/-- Python `int(q)`: truncation toward zero. -/
def itrunc (q : ℚ) : ℤ := q.num.tdiv q.den

theorem itrunc_eq_ceil_or_floor (q : ℚ) :
    itrunc q = if q < 0 then ⌈q⌉ else ⌊q⌋ := by
  unfold itrunc
  split
  · rename_i hlt
    have hnum : q.num < 0 := Rat.num_neg.mpr hlt
    have h1 : q.num.tdiv q.den = -((-q.num).tdiv q.den) := by
      rw [Int.neg_tdiv, neg_neg]
    have h2 : (-q.num).tdiv q.den = (-q.num) / (q.den : ℤ) :=
      Int.tdiv_eq_ediv (by omega) (by positivity)
    have h3 : ⌊-q⌋ = (-q).num / ((-q).den : ℤ) := Rat.floor_def
    rw [Rat.neg_num, Rat.neg_den] at h3
    have h4 : ⌈q⌉ = -⌊-q⌋ := by
      rw [Int.floor_neg]
      ring
    rw [h1, h2, h4, h3]
  · rename_i hge
    have hnum : 0 ≤ q.num := Rat.num_nonneg.mpr (le_of_not_lt hge)
    have h2 : q.num.tdiv q.den = q.num / (q.den : ℤ) :=
      Int.tdiv_eq_ediv hnum (by positivity)
    rw [h2, Rat.floor_def]

theorem itrunc_sub_lt_one (q : ℚ) : q - itrunc q < 1 := by
  rw [itrunc_eq_ceil_or_floor]
  split
  · have h := Int.le_ceil q
    linarith
  · have h := Int.lt_floor_add_one q
    push_cast at h ⊢
    linarith

theorem neg_one_lt_sub_itrunc (q : ℚ) : -1 < q - itrunc q := by
  rw [itrunc_eq_ceil_or_floor]
  split
  · have h := Int.ceil_lt_add_one q
    push_cast at h ⊢
    linarith
  · have h := Int.floor_le q
    linarith

/-- Evaluation rule for `itrunc`, usable on concrete rationals. -/
theorem itrunc_eval (q : ℚ) (z : ℤ)
    (h : (0 ≤ z ∧ (z : ℚ) ≤ q ∧ q < z + 1) ∨ (z ≤ 0 ∧ q ≤ z ∧ (z : ℚ) - 1 < q)) :
    itrunc q = z := by
  rw [itrunc_eq_ceil_or_floor]
  rcases h with ⟨hz, hle, hlt⟩ | ⟨hz, hle, hlt⟩
  · have hznn : (0 : ℚ) ≤ (z : ℚ) := by exact_mod_cast hz
    rw [if_neg (by linarith)]
    exact Int.floor_eq_iff.mpr ⟨hle, hlt⟩
  · by_cases hq : q < 0
    · rw [if_pos hq]
      exact Int.ceil_eq_iff.mpr ⟨hlt, hle⟩
    · rw [if_neg hq]
      have hz0 : z = 0 := by
        have : (0 : ℚ) ≤ q := le_of_not_lt hq
        by_contra hne
        have : (z : ℚ) < 0 := by
          exact_mod_cast lt_of_le_of_ne hz hne
        linarith
      subst hz0
      push_cast at hle hlt
      have h0 : (0 : ℚ) ≤ q := le_of_not_lt hq
      have : q = 0 := le_antisymm hle h0
      rw [this]
      simp

theorem itrunc_eq_zero_bounds (q : ℚ) (h : itrunc q = 0) : -1 < q ∧ q < 1 := by
  have h1 := itrunc_sub_lt_one q
  have h2 := neg_one_lt_sub_itrunc q
  rw [h] at h1 h2
  push_cast at h1 h2
  constructor <;> linarith

/-! ## Modifier State Tracker (`yogaboard/input/modifier_state.py`)

The Python class keeps `self._active_modifiers : Dict[str, int]`, mapping a
modifier name to the id of the touch that pressed it.  We embed the dict as
an association list without duplicate keys. -/

/-- The `_active_modifiers` dictionary: modifier name to owning touch id. -/
abbrev ModifierState := List (String × Nat)

namespace ModifierState

/-- Dict lookup `self._active_modifiers.get(modifier)`. -/
def get (s : ModifierState) (modifier : String) : Option Nat :=
  match s with
  | [] => none
  | (m, t) :: rest => if m = modifier then some t else get rest modifier

/-- `press`: `self._active_modifiers[modifier] = touch_id` (unconditional
dict assignment; last writer wins). -/
def press (s : ModifierState) (modifier : String) (touch_id : Nat) : ModifierState :=
  match s with
  | [] => [(modifier, touch_id)]
  | (m, t) :: rest =>
    if m = modifier then (modifier, touch_id) :: rest else (m, t) :: press rest modifier touch_id

/-- `del self._active_modifiers[modifier]`: remove the (unique) entry. -/
def eraseKey (s : ModifierState) (modifier : String) : ModifierState :=
  match s with
  | [] => []
  | (m, t) :: rest =>
    if m = modifier then rest else (m, t) :: eraseKey rest modifier

/-- `release`: delete the entry only when the holder matches `touch_id`. -/
def release (s : ModifierState) (modifier : String) (touch_id : Nat) : ModifierState :=
  if s.get modifier = some touch_id then s.eraseKey modifier else s

/-- `is_active`: `modifier in self._active_modifiers`. -/
def is_active (s : ModifierState) (modifier : String) : Bool :=
  (s.get modifier).isSome

theorem get_press_self (s : ModifierState) (m : String) (t : Nat) :
    (s.press m t).get m = some t := by
  induction s with
  | nil => simp [press, get]
  | cons p rest ih =>
    obtain ⟨m', t'⟩ := p
    by_cases h : m' = m
    · simp [press, get, h]
    · simp [press, get, h, ih]

theorem get_press_other (s : ModifierState) (m m' : String) (t : Nat) (hne : m' ≠ m) :
    (s.press m t).get m' = s.get m' := by
  have hne' : ¬m = m' := fun h => hne h.symm
  induction s with
  | nil => simp [press, get, hne']
  | cons p rest ih =>
    obtain ⟨k, v⟩ := p
    by_cases h : k = m
    · subst h
      simp [press, get, hne']
    · simp only [press, h, if_neg h, get]
      by_cases h2 : k = m'
      · simp [h2]
      · simp [h2, ih]

/-- The dict of a Python `ModifierState` never holds a key twice. -/
def goodKeys (s : ModifierState) : Prop := (s.map Prod.fst).Nodup

theorem get_eq_none_of_not_mem (s : ModifierState) (m : String)
    (h : m ∉ s.map Prod.fst) : s.get m = none := by
  induction s with
  | nil => rfl
  | cons p rest ih =>
    obtain ⟨k, v⟩ := p
    simp only [List.map_cons, List.mem_cons] at h
    push_neg at h
    have hk : ¬(k = m) := fun hkm => h.1 hkm.symm
    simp only [get, if_neg hk]
    exact ih h.2

theorem mem_keys_press (s : ModifierState) (m x : String) (t : Nat) :
    x ∈ (s.press m t).map Prod.fst ↔ x = m ∨ x ∈ s.map Prod.fst := by
  induction s with
  | nil => simp [press]
  | cons p rest ih =>
    obtain ⟨k, v⟩ := p
    by_cases h : k = m
    · subst h
      simp [press]
    · simp only [press, if_neg h, List.map_cons, List.mem_cons, ih]
      tauto

theorem goodKeys_press (s : ModifierState) (m : String) (t : Nat)
    (h : goodKeys s) : goodKeys (s.press m t) := by
  induction s with
  | nil => simp [goodKeys, press]
  | cons p rest ih =>
    obtain ⟨k, v⟩ := p
    simp only [goodKeys, List.map_cons, List.nodup_cons] at h
    by_cases hk : k = m
    · subst hk
      simpa [goodKeys, press] using h
    · have hrest := ih h.2
      simp only [goodKeys, press, if_neg hk, List.map_cons, List.nodup_cons]
      refine ⟨fun hmem => ?_, hrest⟩
      rcases (mem_keys_press rest m k t).mp hmem with h1 | h1
      · exact hk h1
      · exact h.1 h1

theorem keys_eraseKey_sublist (s : ModifierState) (m : String) :
    ((s.eraseKey m).map Prod.fst).Sublist (s.map Prod.fst) := by
  induction s with
  | nil => simp [eraseKey]
  | cons p rest ih =>
    obtain ⟨k, v⟩ := p
    by_cases hk : k = m
    · simp only [eraseKey, if_pos hk, List.map_cons]
      exact (List.sublist_cons_self _ _)
    · simp only [eraseKey, if_neg hk, List.map_cons]
      exact ih.cons₂ k

theorem goodKeys_eraseKey (s : ModifierState) (m : String)
    (h : goodKeys s) : goodKeys (s.eraseKey m) :=
  h.sublist (keys_eraseKey_sublist s m)

theorem get_eraseKey_of_goodKeys (s : ModifierState) (m : String)
    (h : goodKeys s) : (s.eraseKey m).get m = none := by
  induction s with
  | nil => rfl
  | cons p rest ih =>
    obtain ⟨k, v⟩ := p
    simp only [goodKeys, List.map_cons, List.nodup_cons] at h
    by_cases hk : k = m
    · subst hk
      simp only [eraseKey, if_pos rfl]
      exact get_eq_none_of_not_mem rest k h.1
    · simp only [eraseKey, if_neg hk, get, if_neg hk]
      exact ih h.2

/-- The modifier pressed in the worked example of the claim. -/
def shiftMod : String := "shift"

end ModifierState

/-- C1: `release(modifier, owner)` removes the modifier from the active set
iff `owner` is the current holder (a mismatched release leaves the whole
tracker state unchanged); `press(modifier, owner)` unconditionally assigns
ownership (last writer wins); both operations keep the dict free of
duplicate keys; and in particular `press("shift", 1)` followed by
`release("shift", 2)` leaves shift active while a subsequent
`release("shift", 1)` makes it inactive. -/
theorem modifier_ownership_correct :
    (∀ (s : ModifierState) (m : String) (o : Nat),
        s.get m ≠ some o → s.release m o = s) ∧
    (∀ (s : ModifierState) (m : String) (o : Nat),
        (s.press m o).get m = some o) ∧
    (∀ (s : ModifierState) (m : String) (o : Nat),
        ModifierState.goodKeys s → s.get m = some o →
        (s.release m o).get m = none) ∧
    (∀ (s : ModifierState) (m : String) (o : Nat),
        ModifierState.goodKeys s →
        ModifierState.goodKeys (s.press m o) ∧
        ModifierState.goodKeys (s.release m o)) ∧
    (ModifierState.is_active
        (ModifierState.press [] ModifierState.shiftMod 1) ModifierState.shiftMod = true ∧
      ModifierState.release
        (ModifierState.press [] ModifierState.shiftMod 1) ModifierState.shiftMod 2 =
        ModifierState.press [] ModifierState.shiftMod 1 ∧
      ModifierState.is_active
        ((ModifierState.press [] ModifierState.shiftMod 1).release ModifierState.shiftMod 2)
        ModifierState.shiftMod = true ∧
      ModifierState.is_active
        (((ModifierState.press [] ModifierState.shiftMod 1).release
            ModifierState.shiftMod 2).release ModifierState.shiftMod 1)
        ModifierState.shiftMod = false) := by
  refine ⟨?_, ?_, ?_, ?_, by decide, by decide, by decide, by decide⟩
  · intro s m o h
    simp [ModifierState.release, h]
  · intro s m o
    exact ModifierState.get_press_self s m o
  · intro s m o hg h
    simp only [ModifierState.release, if_pos h]
    exact ModifierState.get_eraseKey_of_goodKeys s m hg
  · intro s m o hg
    refine ⟨ModifierState.goodKeys_press s m o hg, ?_⟩
    unfold ModifierState.release
    split
    · exact ModifierState.goodKeys_eraseKey s m hg
    · exact hg

/-- Witness for C1 at concrete inputs. -/
theorem modifier_ownership_correct_witness :
    ModifierState.release [(ModifierState.shiftMod, 1)] ModifierState.shiftMod 2 =
      [(ModifierState.shiftMod, 1)] ∧
    (ModifierState.press [(ModifierState.shiftMod, 1)] ModifierState.shiftMod 2).get
      ModifierState.shiftMod = some 2 ∧
    (ModifierState.release [(ModifierState.shiftMod, 1)] ModifierState.shiftMod 1).get
      ModifierState.shiftMod = none ∧
    ModifierState.goodKeys
      (ModifierState.press [(ModifierState.shiftMod, 1)] ModifierState.shiftMod 2) :=
  ⟨modifier_ownership_correct.1 [(ModifierState.shiftMod, 1)] ModifierState.shiftMod 2
      (by decide),
    modifier_ownership_correct.2.1 [(ModifierState.shiftMod, 1)] ModifierState.shiftMod 2,
    modifier_ownership_correct.2.2.1 [(ModifierState.shiftMod, 1)] ModifierState.shiftMod 1
      (by simp [ModifierState.goodKeys]) (by decide),
    (modifier_ownership_correct.2.2.2.1 [(ModifierState.shiftMod, 1)] ModifierState.shiftMod 2
      (by simp [ModifierState.goodKeys])).1⟩

/-! ## Gesture Recognition Engine (`yogaboard/input/touchpad_handler.py`)

`TouchpadHandler` consumes raw touch begin/update/end/cancel events and calls
into the virtual touchpad device.  We embed the handler state as `Handler`,
the configuration fields as `Config`, and every device call made by the
handler (`move_pointer`, `scroll`, `click`, `tap`) as an output `Action`
appended to a trace.  GTK event sequences (opaque identifiers compared only
for equality) are modelled as naturals; `time.monotonic()` values are the
timestamps carried by the events. -/

/-- The `TouchState` dataclass. -/
structure TouchState where
  sequence : Nat
  start_x : ℚ
  start_y : ℚ
  last_x : ℚ
  last_y : ℚ
  start_time : ℚ
  has_moved : Bool
deriving DecidableEq, Repr

/-- The gesture tuning parameters read by `TouchpadHandler`. -/
structure Config where
  pointer_sensitivity : ℚ
  scroll_sensitivity : ℚ
  tap_max_duration : ℚ
  tap_max_movement : ℚ
  tap_drag_enabled : Bool
  tap_drag_window : ℚ
deriving DecidableEq, Repr

/-- The default gesture tuning parameters of `TouchpadHandler`. -/
def defaultConfig : Config :=
  { pointer_sensitivity := 2
    scroll_sensitivity := 15 / 100
    tap_max_duration := 25 / 100
    tap_max_movement := 15
    tap_drag_enabled := true
    tap_drag_window := 25 / 100 }

/-- The mutable state of `TouchpadHandler`.  `active_touches` embeds the
Python insertion-ordered dict `sequence -> TouchState`. -/
structure Handler where
  active_touches : List (Nat × TouchState)
  max_fingers_in_gesture : Nat
  any_finger_moved : Bool
  first_touch_time : ℚ
  last_tap_time : ℚ
  tap_drag_active : Bool
  pointer_accumulator_x : ℚ
  pointer_accumulator_y : ℚ
  scroll_accumulator_x : ℚ
  scroll_accumulator_y : ℚ
deriving DecidableEq, Repr

/-- The handler state as constructed by `TouchpadHandler.__init__`. -/
def initHandler : Handler :=
  { active_touches := []
    max_fingers_in_gesture := 0
    any_finger_moved := false
    first_touch_time := 0
    last_tap_time := 0
    tap_drag_active := false
    pointer_accumulator_x := 0
    pointer_accumulator_y := 0
    scroll_accumulator_x := 0
    scroll_accumulator_y := 0 }

/-- The button-name strings used by the handler. -/
def leftBtn : String := "left"

/-- The two-finger tap button name. -/
def rightBtn : String := "right"

/-- The three-or-more-finger tap button name. -/
def middleBtn : String := "middle"

/-- One call made by the handler into the virtual touchpad device. -/
inductive Action where
  | movePointer (dx dy : ℤ)
  | scroll (dx dy : ℤ)
  | click (button : String) (pressed : Bool)
  | tap (button : String)
deriving DecidableEq, Repr

/-- `self.active_touches[sequence]` lookup on the embedded dict. -/
def dictGet (l : List (Nat × TouchState)) (k : Nat) : Option TouchState :=
  match l with
  | [] => none
  | (k', v) :: rest => if k' = k then some v else dictGet rest k

/-- `self.active_touches[sequence] = v`: replace in place or append
(Python dicts keep insertion order and overwrite in place). -/
def dictSet (l : List (Nat × TouchState)) (k : Nat) (v : TouchState) :
    List (Nat × TouchState) :=
  match l with
  | [] => [(k, v)]
  | (k', v') :: rest =>
    if k' = k then (k, v) :: rest else (k', v') :: dictSet rest k v

/-- `del self.active_touches[sequence]`. -/
def dictErase (l : List (Nat × TouchState)) (k : Nat) : List (Nat × TouchState) :=
  match l with
  | [] => []
  | (k', v') :: rest =>
    if k' = k then rest else (k', v') :: dictErase rest k

/-- `_process_single_finger_motion(dx, dy)`: accumulate the scaled delta and
dispatch the truncated integer parts as a pointer move. -/
def process_single_finger_motion (cfg : Config) (h : Handler) (dx dy : ℚ) :
    Handler × List Action :=
  let ax := h.pointer_accumulator_x + dx * cfg.pointer_sensitivity
  let ay := h.pointer_accumulator_y + dy * cfg.pointer_sensitivity
  let pdx := itrunc ax
  let pdy := itrunc ay
  if pdx ≠ 0 ∨ pdy ≠ 0 then
    ({ h with pointer_accumulator_x := ax - pdx, pointer_accumulator_y := ay - pdy },
      [Action.movePointer pdx pdy])
  else
    ({ h with pointer_accumulator_x := ax, pointer_accumulator_y := ay }, [])

/-- `_process_two_finger_motion(dx, dy)`: scroll accumulation with the
vertical axis inverted (natural scrolling). -/
def process_two_finger_motion (cfg : Config) (h : Handler) (dx dy : ℚ) :
    Handler × List Action :=
  let ax := h.scroll_accumulator_x + dx * cfg.scroll_sensitivity
  let ay := h.scroll_accumulator_y - dy * cfg.scroll_sensitivity
  let sx := itrunc ax
  let sy := itrunc ay
  if sx ≠ 0 ∨ sy ≠ 0 then
    ({ h with scroll_accumulator_x := ax - sx, scroll_accumulator_y := ay - sy },
      [Action.scroll sx sy])
  else
    ({ h with scroll_accumulator_x := ax, scroll_accumulator_y := ay }, [])

/-- `_on_touch_begin(event)` at monotonic time `now`. -/
def on_touch_begin (cfg : Config) (h : Handler) (seq : Nat) (x y now : ℚ) :
    Handler × List Action :=
  let hd :=
    if h.active_touches.length = 0 then
      let h1 := { h with
        first_touch_time := now
        max_fingers_in_gesture := 0
        any_finger_moved := false
        scroll_accumulator_x := 0
        scroll_accumulator_y := 0
        pointer_accumulator_x := 0
        pointer_accumulator_y := 0 }
      if cfg.tap_drag_enabled = true ∧ now - h1.last_tap_time < cfg.tap_drag_window then
        ({ h1 with tap_drag_active := true }, [Action.click leftBtn true])
      else (h1, ([] : List Action))
    else (h, ([] : List Action))
  let h2 := hd.1
  let ts : TouchState :=
    { sequence := seq, start_x := x, start_y := y, last_x := x, last_y := y
      start_time := now, has_moved := false }
  let h3 := { h2 with active_touches := dictSet h2.active_touches seq ts }
  let h4 := { h3 with
    max_fingers_in_gesture := max h3.max_fingers_in_gesture h3.active_touches.length }
  (h4, hd.2)

/-- `_on_touch_update(event)`. -/
def on_touch_update (cfg : Config) (h : Handler) (seq : Nat) (x y : ℚ) :
    Handler × List Action :=
  match dictGet h.active_touches seq with
  | none => (h, [])
  | some touch =>
    let dx := x - touch.last_x
    let dy := y - touch.last_y
    let total_movement := |x - touch.start_x| + |y - touch.start_y|
    let moved := total_movement > cfg.tap_max_movement
    let touch' : TouchState :=
      { touch with
        last_x := x, last_y := y
        has_moved := if moved then true else touch.has_moved }
    let h1 := { h with
      active_touches := dictSet h.active_touches seq touch'
      any_finger_moved := if moved then true else h.any_finger_moved }
    let finger_count := h1.active_touches.length
    if finger_count = 1 then process_single_finger_motion cfg h1 dx dy
    else if 2 ≤ finger_count then process_two_finger_motion cfg h1 dx dy
    else (h1, [])

/-- `_detect_tap_gesture()` at monotonic time `now`: returns the updated
state (`_last_tap_time` recording) and the tap classification. -/
def detect_tap_gesture (cfg : Config) (h : Handler) (now : ℚ) :
    Handler × Option String :=
  let duration := now - h.first_touch_time
  if duration > cfg.tap_max_duration then (h, none)
  else if h.any_finger_moved = true then (h, none)
  else if h.max_fingers_in_gesture = 1 then
    ({ h with last_tap_time := now }, some leftBtn)
  else if h.max_fingers_in_gesture = 2 then (h, some rightBtn)
  else if 3 ≤ h.max_fingers_in_gesture then (h, some middleBtn)
  else (h, none)

/-- `_on_touch_end(event)` at monotonic time `now`. -/
def on_touch_end (cfg : Config) (h : Handler) (seq : Nat) (now : ℚ) :
    Handler × List Action :=
  if (dictGet h.active_touches seq).isSome then
    let h1 := { h with active_touches := dictErase h.active_touches seq }
    if h1.active_touches.length = 0 then
      if h1.tap_drag_active = true then
        ({ h1 with tap_drag_active := false }, [Action.click leftBtn false])
      else
        let r := detect_tap_gesture cfg h1 now
        match r.2 with
        | some btn => (r.1, [Action.tap btn])
        | none => (r.1, [])
    else (h1, [])
  else (h, [])

/-- `_reset_gesture_state()`. -/
def reset_gesture_state (h : Handler) : Handler :=
  { h with
    active_touches := []
    scroll_accumulator_x := 0
    scroll_accumulator_y := 0
    pointer_accumulator_x := 0
    pointer_accumulator_y := 0
    max_fingers_in_gesture := 0
    any_finger_moved := false }

/-- `_on_touch_cancel(event)`. -/
def on_touch_cancel (h : Handler) (seq : Nat) : Handler × List Action :=
  let h1 :=
    if (dictGet h.active_touches seq).isSome then
      { h with active_touches := dictErase h.active_touches seq }
    else h
  if h1.active_touches.length = 0 then
    let hd :=
      if h1.tap_drag_active = true then
        ({ h1 with tap_drag_active := false }, [Action.click leftBtn false])
      else (h1, ([] : List Action))
    (reset_gesture_state hd.1, hd.2)
  else (h1, [])

/-- A raw touch event delivered by the GUI layer, with its monotonic time. -/
inductive Ev where
  | begin (seq : Nat) (x y t : ℚ)
  | update (seq : Nat) (x y : ℚ)
  | touchEnd (seq : Nat) (t : ℚ)
  | cancel (seq : Nat)
deriving DecidableEq, Repr

/-- Dispatch one raw event, as `_on_event` does. -/
def step (cfg : Config) (h : Handler) : Ev → Handler × List Action
  | Ev.begin seq x y t => on_touch_begin cfg h seq x y t
  | Ev.update seq x y => on_touch_update cfg h seq x y
  | Ev.touchEnd seq t => on_touch_end cfg h seq t
  | Ev.cancel seq => on_touch_cancel h seq

/-- Process a list of raw events, concatenating the emitted device calls. -/
def runEvents (cfg : Config) (h : Handler) : List Ev → Handler × List Action
  | [] => (h, [])
  | e :: es =>
    let r1 := step cfg h e
    let r2 := runEvents cfg r1.1 es
    (r2.1, r1.2 ++ r2.2)

/-- Sum of the x components of the pointer-move actions in a trace. -/
def sumMoveX (tr : List Action) : ℤ :=
  match tr with
  | [] => 0
  | Action.movePointer dx _ :: rest => dx + sumMoveX rest
  | _ :: rest => sumMoveX rest

/-- Sum of the y components of the pointer-move actions in a trace. -/
def sumMoveY (tr : List Action) : ℤ :=
  match tr with
  | [] => 0
  | Action.movePointer _ dy :: rest => dy + sumMoveY rest
  | _ :: rest => sumMoveY rest

/-- Number of occurrences of an action in a trace. -/
def countAct (tr : List Action) (a : Action) : Nat :=
  (tr.filter (fun b => b = a)).length

/-! ### Sub-pixel accumulator bounds -/

/-- All four sub-pixel accumulators lie strictly between -1 and 1. -/
def accBounded (h : Handler) : Prop :=
  (-1 < h.pointer_accumulator_x ∧ h.pointer_accumulator_x < 1) ∧
  (-1 < h.pointer_accumulator_y ∧ h.pointer_accumulator_y < 1) ∧
  (-1 < h.scroll_accumulator_x ∧ h.scroll_accumulator_x < 1) ∧
  (-1 < h.scroll_accumulator_y ∧ h.scroll_accumulator_y < 1)

theorem single_motion_dispatch (cfg : Config) (h : Handler) (dx dy : ℚ)
    (hnz : itrunc (h.pointer_accumulator_x + dx * cfg.pointer_sensitivity) ≠ 0 ∨
      itrunc (h.pointer_accumulator_y + dy * cfg.pointer_sensitivity) ≠ 0) :
    process_single_finger_motion cfg h dx dy =
      ({ h with
          pointer_accumulator_x := h.pointer_accumulator_x + dx * cfg.pointer_sensitivity -
            itrunc (h.pointer_accumulator_x + dx * cfg.pointer_sensitivity)
          pointer_accumulator_y := h.pointer_accumulator_y + dy * cfg.pointer_sensitivity -
            itrunc (h.pointer_accumulator_y + dy * cfg.pointer_sensitivity) },
        [Action.movePointer
          (itrunc (h.pointer_accumulator_x + dx * cfg.pointer_sensitivity))
          (itrunc (h.pointer_accumulator_y + dy * cfg.pointer_sensitivity))]) := by
  simp only [process_single_finger_motion]
  rw [if_pos hnz]

theorem single_motion_hold (cfg : Config) (h : Handler) (dx dy : ℚ)
    (hx : itrunc (h.pointer_accumulator_x + dx * cfg.pointer_sensitivity) = 0)
    (hy : itrunc (h.pointer_accumulator_y + dy * cfg.pointer_sensitivity) = 0) :
    process_single_finger_motion cfg h dx dy =
      ({ h with
          pointer_accumulator_x := h.pointer_accumulator_x + dx * cfg.pointer_sensitivity
          pointer_accumulator_y := h.pointer_accumulator_y + dy * cfg.pointer_sensitivity },
        []) := by
  simp only [process_single_finger_motion]
  rw [if_neg (by push_neg; exact ⟨hx, hy⟩)]

theorem two_motion_dispatch (cfg : Config) (h : Handler) (dx dy : ℚ)
    (hnz : itrunc (h.scroll_accumulator_x + dx * cfg.scroll_sensitivity) ≠ 0 ∨
      itrunc (h.scroll_accumulator_y - dy * cfg.scroll_sensitivity) ≠ 0) :
    process_two_finger_motion cfg h dx dy =
      ({ h with
          scroll_accumulator_x := h.scroll_accumulator_x + dx * cfg.scroll_sensitivity -
            itrunc (h.scroll_accumulator_x + dx * cfg.scroll_sensitivity)
          scroll_accumulator_y := h.scroll_accumulator_y - dy * cfg.scroll_sensitivity -
            itrunc (h.scroll_accumulator_y - dy * cfg.scroll_sensitivity) },
        [Action.scroll
          (itrunc (h.scroll_accumulator_x + dx * cfg.scroll_sensitivity))
          (itrunc (h.scroll_accumulator_y - dy * cfg.scroll_sensitivity))]) := by
  simp only [process_two_finger_motion]
  rw [if_pos hnz]

theorem two_motion_hold (cfg : Config) (h : Handler) (dx dy : ℚ)
    (hx : itrunc (h.scroll_accumulator_x + dx * cfg.scroll_sensitivity) = 0)
    (hy : itrunc (h.scroll_accumulator_y - dy * cfg.scroll_sensitivity) = 0) :
    process_two_finger_motion cfg h dx dy =
      ({ h with
          scroll_accumulator_x := h.scroll_accumulator_x + dx * cfg.scroll_sensitivity
          scroll_accumulator_y := h.scroll_accumulator_y - dy * cfg.scroll_sensitivity },
        []) := by
  simp only [process_two_finger_motion]
  rw [if_neg (by push_neg; exact ⟨hx, hy⟩)]

theorem single_motion_acc (cfg : Config) (h : Handler) (dx dy : ℚ) :
    (-1 < (process_single_finger_motion cfg h dx dy).1.pointer_accumulator_x ∧
      (process_single_finger_motion cfg h dx dy).1.pointer_accumulator_x < 1) ∧
    (-1 < (process_single_finger_motion cfg h dx dy).1.pointer_accumulator_y ∧
      (process_single_finger_motion cfg h dx dy).1.pointer_accumulator_y < 1) ∧
    (process_single_finger_motion cfg h dx dy).1.scroll_accumulator_x =
      h.scroll_accumulator_x ∧
    (process_single_finger_motion cfg h dx dy).1.scroll_accumulator_y =
      h.scroll_accumulator_y := by
  by_cases hnz : itrunc (h.pointer_accumulator_x + dx * cfg.pointer_sensitivity) ≠ 0 ∨
      itrunc (h.pointer_accumulator_y + dy * cfg.pointer_sensitivity) ≠ 0
  · rw [single_motion_dispatch cfg h dx dy hnz]
    exact ⟨⟨neg_one_lt_sub_itrunc _, itrunc_sub_lt_one _⟩,
      ⟨neg_one_lt_sub_itrunc _, itrunc_sub_lt_one _⟩, rfl, rfl⟩
  · push_neg at hnz
    rw [single_motion_hold cfg h dx dy hnz.1 hnz.2]
    exact ⟨itrunc_eq_zero_bounds _ hnz.1, itrunc_eq_zero_bounds _ hnz.2, rfl, rfl⟩

theorem two_motion_acc (cfg : Config) (h : Handler) (dx dy : ℚ) :
    (-1 < (process_two_finger_motion cfg h dx dy).1.scroll_accumulator_x ∧
      (process_two_finger_motion cfg h dx dy).1.scroll_accumulator_x < 1) ∧
    (-1 < (process_two_finger_motion cfg h dx dy).1.scroll_accumulator_y ∧
      (process_two_finger_motion cfg h dx dy).1.scroll_accumulator_y < 1) ∧
    (process_two_finger_motion cfg h dx dy).1.pointer_accumulator_x =
      h.pointer_accumulator_x ∧
    (process_two_finger_motion cfg h dx dy).1.pointer_accumulator_y =
      h.pointer_accumulator_y := by
  by_cases hnz : itrunc (h.scroll_accumulator_x + dx * cfg.scroll_sensitivity) ≠ 0 ∨
      itrunc (h.scroll_accumulator_y - dy * cfg.scroll_sensitivity) ≠ 0
  · rw [two_motion_dispatch cfg h dx dy hnz]
    exact ⟨⟨neg_one_lt_sub_itrunc _, itrunc_sub_lt_one _⟩,
      ⟨neg_one_lt_sub_itrunc _, itrunc_sub_lt_one _⟩, rfl, rfl⟩
  · push_neg at hnz
    rw [two_motion_hold cfg h dx dy hnz.1 hnz.2]
    exact ⟨itrunc_eq_zero_bounds _ hnz.1, itrunc_eq_zero_bounds _ hnz.2, rfl, rfl⟩

theorem detect_tap_gesture_accs (cfg : Config) (h : Handler) (now : ℚ) :
    (detect_tap_gesture cfg h now).1.pointer_accumulator_x = h.pointer_accumulator_x ∧
    (detect_tap_gesture cfg h now).1.pointer_accumulator_y = h.pointer_accumulator_y ∧
    (detect_tap_gesture cfg h now).1.scroll_accumulator_x = h.scroll_accumulator_x ∧
    (detect_tap_gesture cfg h now).1.scroll_accumulator_y = h.scroll_accumulator_y := by
  simp only [detect_tap_gesture]
  repeat' split
  all_goals simp

theorem single_motion_accBounded (cfg : Config) (h : Handler) (dx dy : ℚ)
    (hb : accBounded h) :
    accBounded (process_single_finger_motion cfg h dx dy).1 := by
  have hacc := single_motion_acc cfg h dx dy
  exact ⟨hacc.1, hacc.2.1, hacc.2.2.1 ▸ hb.2.2.1, hacc.2.2.2 ▸ hb.2.2.2⟩

theorem two_motion_accBounded (cfg : Config) (h : Handler) (dx dy : ℚ)
    (hb : accBounded h) :
    accBounded (process_two_finger_motion cfg h dx dy).1 := by
  have hacc := two_motion_acc cfg h dx dy
  exact ⟨hacc.2.2.1 ▸ hb.1, hacc.2.2.2 ▸ hb.2.1, hacc.1, hacc.2.1⟩

theorem detect_accBounded (cfg : Config) (h : Handler) (now : ℚ)
    (hb : accBounded h) : accBounded (detect_tap_gesture cfg h now).1 := by
  have hacc := detect_tap_gesture_accs cfg h now
  exact ⟨hacc.1 ▸ hb.1, hacc.2.1 ▸ hb.2.1,
    hacc.2.2.1 ▸ hb.2.2.1, hacc.2.2.2 ▸ hb.2.2.2⟩

theorem step_accBounded (cfg : Config) (h : Handler) (e : Ev)
    (hb : accBounded h) : accBounded (step cfg h e).1 := by
  have h01 : (-1 : ℚ) < 0 ∧ (0 : ℚ) < 1 := by norm_num
  cases e with
  | begin seq x y t =>
    simp only [step, on_touch_begin]
    repeat' split
    all_goals first
      | exact ⟨h01, h01, h01, h01⟩
      | exact hb
  | update seq x y =>
    simp only [step, on_touch_update]
    rcases hg : dictGet h.active_touches seq with _ | touch
    · exact hb
    · by_cases hm : |x - touch.start_x| + |y - touch.start_y| > cfg.tap_max_movement
      · simp only [if_pos hm]
        split
        · exact single_motion_accBounded cfg _ _ _ hb
        · split
          · exact two_motion_accBounded cfg _ _ _ hb
          · exact hb
      · simp only [if_neg hm]
        split
        · exact single_motion_accBounded cfg _ _ _ hb
        · split
          · exact two_motion_accBounded cfg _ _ _ hb
          · exact hb
  | touchEnd seq t =>
    simp only [step, on_touch_end]
    split
    · split
      · split
        · exact hb
        · split
          · exact detect_accBounded cfg _ _ hb
          · exact detect_accBounded cfg _ _ hb
      · exact hb
    · exact hb
  | cancel seq =>
    simp only [step, on_touch_cancel]
    repeat' split
    all_goals first
      | exact ⟨h01, h01, h01, h01⟩
      | exact hb

theorem runEvents_accBounded (cfg : Config) (evs : List Ev) :
    ∀ h : Handler, accBounded h → accBounded (runEvents cfg h evs).1 := by
  induction evs with
  | nil => intro h hb; exact hb
  | cons e es ih =>
    intro h hb
    simp only [runEvents]
    exact ih _ (step_accBounded cfg h e hb)

/-! ### Sub-pixel accumulation: decomposition invariance -/

/-- Feed a sequence of single-finger deltas through
`_process_single_finger_motion`, concatenating the dispatched actions. -/
def runMotion (cfg : Config) (h : Handler) : List (ℚ × ℚ) → Handler × List Action
  | [] => (h, [])
  | d :: ds =>
    let r1 := process_single_finger_motion cfg h d.1 d.2
    let r2 := runMotion cfg r1.1 ds
    (r2.1, r1.2 ++ r2.2)

theorem sumMoveX_append (a b : List Action) :
    sumMoveX (a ++ b) = sumMoveX a + sumMoveX b := by
  induction a with
  | nil => simp [sumMoveX]
  | cons x rest ih =>
    cases x <;> simp [sumMoveX, ih, add_assoc]

theorem sumMoveY_append (a b : List Action) :
    sumMoveY (a ++ b) = sumMoveY a + sumMoveY b := by
  induction a with
  | nil => simp [sumMoveY]
  | cons x rest ih =>
    cases x <;> simp [sumMoveY, ih, add_assoc]

theorem single_motion_sumX (cfg : Config) (h : Handler) (dx dy : ℚ) :
    (sumMoveX (process_single_finger_motion cfg h dx dy).2 : ℚ) +
      (process_single_finger_motion cfg h dx dy).1.pointer_accumulator_x =
    h.pointer_accumulator_x + dx * cfg.pointer_sensitivity := by
  by_cases hnz : itrunc (h.pointer_accumulator_x + dx * cfg.pointer_sensitivity) ≠ 0 ∨
      itrunc (h.pointer_accumulator_y + dy * cfg.pointer_sensitivity) ≠ 0
  · rw [single_motion_dispatch cfg h dx dy hnz]
    simp [sumMoveX]
  · push_neg at hnz
    rw [single_motion_hold cfg h dx dy hnz.1 hnz.2]
    simp [sumMoveX]

theorem single_motion_sumY (cfg : Config) (h : Handler) (dx dy : ℚ) :
    (sumMoveY (process_single_finger_motion cfg h dx dy).2 : ℚ) +
      (process_single_finger_motion cfg h dx dy).1.pointer_accumulator_y =
    h.pointer_accumulator_y + dy * cfg.pointer_sensitivity := by
  by_cases hnz : itrunc (h.pointer_accumulator_x + dx * cfg.pointer_sensitivity) ≠ 0 ∨
      itrunc (h.pointer_accumulator_y + dy * cfg.pointer_sensitivity) ≠ 0
  · rw [single_motion_dispatch cfg h dx dy hnz]
    simp [sumMoveY]
  · push_neg at hnz
    rw [single_motion_hold cfg h dx dy hnz.1 hnz.2]
    simp [sumMoveY]

theorem runMotion_sumX (cfg : Config) (ds : List (ℚ × ℚ)) :
    ∀ h : Handler,
      (sumMoveX (runMotion cfg h ds).2 : ℚ) + (runMotion cfg h ds).1.pointer_accumulator_x =
      h.pointer_accumulator_x + cfg.pointer_sensitivity * (ds.map Prod.fst).sum := by
  induction ds with
  | nil => intro h; simp [runMotion, sumMoveX]
  | cons d rest ih =>
    intro h
    have h1 := single_motion_sumX cfg h d.1 d.2
    have h2 := ih (process_single_finger_motion cfg h d.1 d.2).1
    simp only [runMotion, sumMoveX_append]
    push_cast
    push_cast at h1 h2
    simp only [List.map_cons, List.sum_cons]
    linarith [h1, h2]

theorem runMotion_sumY (cfg : Config) (ds : List (ℚ × ℚ)) :
    ∀ h : Handler,
      (sumMoveY (runMotion cfg h ds).2 : ℚ) + (runMotion cfg h ds).1.pointer_accumulator_y =
      h.pointer_accumulator_y + cfg.pointer_sensitivity * (ds.map Prod.snd).sum := by
  induction ds with
  | nil => intro h; simp [runMotion, sumMoveY]
  | cons d rest ih =>
    intro h
    have h1 := single_motion_sumY cfg h d.1 d.2
    have h2 := ih (process_single_finger_motion cfg h d.1 d.2).1
    simp only [runMotion, sumMoveY_append]
    push_cast
    push_cast at h1 h2
    simp only [List.map_cons, List.sum_cons]
    linarith [h1, h2]

theorem single_motion_acc_nonneg (cfg : Config) (h : Handler) (dx dy : ℚ)
    (hx : 0 ≤ h.pointer_accumulator_x) (hdx : 0 ≤ dx)
    (hs : 0 ≤ cfg.pointer_sensitivity) :
    0 ≤ (process_single_finger_motion cfg h dx dy).1.pointer_accumulator_x := by
  have hax : 0 ≤ h.pointer_accumulator_x + dx * cfg.pointer_sensitivity := by positivity
  by_cases hnz : itrunc (h.pointer_accumulator_x + dx * cfg.pointer_sensitivity) ≠ 0 ∨
      itrunc (h.pointer_accumulator_y + dy * cfg.pointer_sensitivity) ≠ 0
  · rw [single_motion_dispatch cfg h dx dy hnz]
    show (0 : ℚ) ≤ h.pointer_accumulator_x + dx * cfg.pointer_sensitivity -
      itrunc (h.pointer_accumulator_x + dx * cfg.pointer_sensitivity)
    rw [itrunc_eq_ceil_or_floor, if_neg (not_lt.mpr hax)]
    have := Int.floor_le (h.pointer_accumulator_x + dx * cfg.pointer_sensitivity)
    linarith
  · push_neg at hnz
    rw [single_motion_hold cfg h dx dy hnz.1 hnz.2]
    exact hax

theorem runMotion_acc_nonneg (cfg : Config) (ds : List (ℚ × ℚ))
    (hds : ∀ d ∈ ds, 0 ≤ d.1) (hs : 0 ≤ cfg.pointer_sensitivity) :
    ∀ h : Handler, 0 ≤ h.pointer_accumulator_x →
      0 ≤ (runMotion cfg h ds).1.pointer_accumulator_x := by
  induction ds with
  | nil => intro h hx; exact hx
  | cons d rest ih =>
    intro h hx
    simp only [runMotion]
    exact ih (fun p hp => hds p (List.mem_cons_of_mem d hp)) _
      (single_motion_acc_nonneg cfg h d.1 d.2 hx (hds d (List.mem_cons_self d rest)) hs)

theorem runMotion_acc_lt_one (cfg : Config) (ds : List (ℚ × ℚ)) :
    ∀ h : Handler, h.pointer_accumulator_x < 1 →
      (runMotion cfg h ds).1.pointer_accumulator_x < 1 := by
  induction ds with
  | nil => intro h hx; exact hx
  | cons d rest ih =>
    intro h hx
    simp only [runMotion]
    exact ih _ (single_motion_acc cfg h d.1 d.2).1.2

/-- C7: the sub-pixel pointer accumulator is decomposition-invariant: for
every configuration, state and delta sequence, the cumulative integer
pointer movement sent plus the retained remainder equals the starting
accumulator plus the sensitivity-scaled cumulative input delta (both axes);
in particular, from a fresh handler, feeding the deltas
[0.6, 0.6, 0.6] produces the same cumulative integer x-movement as feeding
[1.8] in one step. -/
theorem subpixel_accumulation_decomposition_invariant :
    (∀ (cfg : Config) (h : Handler) (ds : List (ℚ × ℚ)),
        (sumMoveX (runMotion cfg h ds).2 : ℚ) +
            (runMotion cfg h ds).1.pointer_accumulator_x =
          h.pointer_accumulator_x +
            cfg.pointer_sensitivity * (ds.map Prod.fst).sum ∧
        (sumMoveY (runMotion cfg h ds).2 : ℚ) +
            (runMotion cfg h ds).1.pointer_accumulator_y =
          h.pointer_accumulator_y +
            cfg.pointer_sensitivity * (ds.map Prod.snd).sum) ∧
    sumMoveX (runMotion defaultConfig initHandler
        [(3 / 5, 0), (3 / 5, 0), (3 / 5, 0)]).2 =
      sumMoveX (runMotion defaultConfig initHandler [(9 / 5, 0)]).2 := by
  constructor
  · exact fun cfg h ds => ⟨runMotion_sumX cfg ds h, runMotion_sumY cfg ds h⟩
  · have hA := runMotion_sumX defaultConfig
      [((3 : ℚ) / 5, (0 : ℚ)), (3 / 5, 0), (3 / 5, 0)] initHandler
    have hB := runMotion_sumX defaultConfig [((9 : ℚ) / 5, (0 : ℚ))] initHandler
    rw [show initHandler.pointer_accumulator_x = (0 : ℚ) from rfl,
      show defaultConfig.pointer_sensitivity = (2 : ℚ) from rfl] at hA hB
    simp only [List.map_cons, List.map_nil, List.sum_cons, List.sum_nil] at hA hB
    norm_num at hA hB
    have hA0 : (0 : ℚ) ≤ (runMotion defaultConfig initHandler
        [((3 : ℚ) / 5, (0 : ℚ)), (3 / 5, 0), (3 / 5, 0)]).1.pointer_accumulator_x := by
      refine runMotion_acc_nonneg defaultConfig _ ?_ (by norm_num [defaultConfig]) _ ?_
      · intro d hd
        simp only [List.mem_cons, List.mem_singleton] at hd
        rcases hd with h1 | h1 | h1 | h1
        · rw [h1]; norm_num
        · rw [h1]; norm_num
        · rw [h1]; norm_num
        · exact absurd h1 (by simp)
      · norm_num [initHandler]
    have hB0 : (0 : ℚ) ≤ (runMotion defaultConfig initHandler
        [((9 : ℚ) / 5, (0 : ℚ))]).1.pointer_accumulator_x := by
      refine runMotion_acc_nonneg defaultConfig _ ?_ (by norm_num [defaultConfig]) _ ?_
      · intro d hd
        simp only [List.mem_singleton] at hd
        rw [hd]
        norm_num
      · norm_num [initHandler]
    have hA1 : (runMotion defaultConfig initHandler
        [((3 : ℚ) / 5, (0 : ℚ)), (3 / 5, 0), (3 / 5, 0)]).1.pointer_accumulator_x < 1 :=
      runMotion_acc_lt_one defaultConfig _ _ (by norm_num [initHandler])
    have hB1 : (runMotion defaultConfig initHandler
        [((9 : ℚ) / 5, (0 : ℚ))]).1.pointer_accumulator_x < 1 :=
      runMotion_acc_lt_one defaultConfig _ _ (by norm_num [initHandler])
    have h1 : ((sumMoveX (runMotion defaultConfig initHandler
        [((3 : ℚ) / 5, (0 : ℚ)), (3 / 5, 0), (3 / 5, 0)]).2 -
        sumMoveX (runMotion defaultConfig initHandler
          [((9 : ℚ) / 5, (0 : ℚ))]).2 : ℤ) : ℚ) < 1 := by
      push_cast
      linarith
    have h2 : (-1 : ℚ) < ((sumMoveX (runMotion defaultConfig initHandler
        [((3 : ℚ) / 5, (0 : ℚ)), (3 / 5, 0), (3 / 5, 0)]).2 -
        sumMoveX (runMotion defaultConfig initHandler
          [((9 : ℚ) / 5, (0 : ℚ))]).2 : ℤ) : ℚ) := by
      push_cast
      linarith
    have h1' : (sumMoveX (runMotion defaultConfig initHandler
        [((3 : ℚ) / 5, (0 : ℚ)), (3 / 5, 0), (3 / 5, 0)]).2 -
        sumMoveX (runMotion defaultConfig initHandler
          [((9 : ℚ) / 5, (0 : ℚ))]).2 : ℤ) < 1 := by
      exact_mod_cast h1
    have h2' : (-1 : ℤ) < (sumMoveX (runMotion defaultConfig initHandler
        [((3 : ℚ) / 5, (0 : ℚ)), (3 / 5, 0), (3 / 5, 0)]).2 -
        sumMoveX (runMotion defaultConfig initHandler
          [((9 : ℚ) / 5, (0 : ℚ))]).2 : ℤ) := by
      exact_mod_cast h2
    omega

/-- C9: in every state the gesture engine can reach from its initial state,
each of the four sub-pixel accumulators lies strictly between -1 and 1; and
on each per-contact update, whenever the truncated integer part of either
axis of the relevant accumulator pair is nonzero, exactly one motion action
carrying those integer parts is dispatched and the integer parts are
subtracted from the accumulators. -/
theorem accumulators_subunit_invariant :
    (∀ (cfg : Config) (evs : List Ev), accBounded (runEvents cfg initHandler evs).1) ∧
    (∀ (cfg : Config) (h : Handler) (dx dy : ℚ),
        itrunc (h.pointer_accumulator_x + dx * cfg.pointer_sensitivity) ≠ 0 ∨
          itrunc (h.pointer_accumulator_y + dy * cfg.pointer_sensitivity) ≠ 0 →
        (process_single_finger_motion cfg h dx dy).2 =
          [Action.movePointer
            (itrunc (h.pointer_accumulator_x + dx * cfg.pointer_sensitivity))
            (itrunc (h.pointer_accumulator_y + dy * cfg.pointer_sensitivity))] ∧
        (process_single_finger_motion cfg h dx dy).1.pointer_accumulator_x =
          h.pointer_accumulator_x + dx * cfg.pointer_sensitivity -
            itrunc (h.pointer_accumulator_x + dx * cfg.pointer_sensitivity) ∧
        (process_single_finger_motion cfg h dx dy).1.pointer_accumulator_y =
          h.pointer_accumulator_y + dy * cfg.pointer_sensitivity -
            itrunc (h.pointer_accumulator_y + dy * cfg.pointer_sensitivity)) ∧
    (∀ (cfg : Config) (h : Handler) (dx dy : ℚ),
        itrunc (h.scroll_accumulator_x + dx * cfg.scroll_sensitivity) ≠ 0 ∨
          itrunc (h.scroll_accumulator_y - dy * cfg.scroll_sensitivity) ≠ 0 →
        (process_two_finger_motion cfg h dx dy).2 =
          [Action.scroll
            (itrunc (h.scroll_accumulator_x + dx * cfg.scroll_sensitivity))
            (itrunc (h.scroll_accumulator_y - dy * cfg.scroll_sensitivity))]) := by
  refine ⟨fun cfg evs => runEvents_accBounded cfg evs initHandler ?_,
    fun cfg h dx dy hnz => ?_, fun cfg h dx dy hnz => ?_⟩
  · constructor <;> norm_num [initHandler]
  · rw [single_motion_dispatch cfg h dx dy hnz]
    exact ⟨rfl, rfl, rfl⟩
  · rw [two_motion_dispatch cfg h dx dy hnz]

/-- Witness for C9's dispatch clauses at a concrete input. -/
theorem accumulators_subunit_invariant_witness :
    (process_single_finger_motion defaultConfig initHandler 1 0).2 =
      [Action.movePointer (itrunc ((0 : ℚ) + 1 * 2)) (itrunc ((0 : ℚ) + 0 * 2))] ∧
    (process_two_finger_motion defaultConfig initHandler 10 0).2 =
      [Action.scroll (itrunc ((0 : ℚ) + 10 * (15 / 100)))
        (itrunc ((0 : ℚ) - 0 * (15 / 100)))] := by
  have e2 : itrunc ((0 : ℚ) + 1 * 2) = 2 := itrunc_eval _ _ (by norm_num)
  have e0 : itrunc ((0 : ℚ) + 0 * 2) = 0 := itrunc_eval _ _ (by norm_num)
  have e1 : itrunc ((0 : ℚ) + 10 * (15 / 100)) = 1 := itrunc_eval _ _ (by norm_num)
  have e0' : itrunc ((0 : ℚ) - 0 * (15 / 100)) = 0 := itrunc_eval _ _ (by norm_num)
  constructor
  · exact (accumulators_subunit_invariant.2.1 defaultConfig initHandler 1 0
      (by rw [show initHandler.pointer_accumulator_x = (0 : ℚ) from rfl,
        show defaultConfig.pointer_sensitivity = (2 : ℚ) from rfl, e2]; left; norm_num)).1
  · exact accumulators_subunit_invariant.2.2 defaultConfig initHandler 10 0
      (by rw [show initHandler.scroll_accumulator_x = (0 : ℚ) from rfl,
        show defaultConfig.scroll_sensitivity = ((15 : ℚ) / 100) from rfl, e1]; left; norm_num)

/-! ### Single-session analysis -/

/-- The `TouchState` stored by `_on_touch_begin`. -/
def mkTouch (seq : Nat) (x y now : ℚ) : TouchState :=
  { sequence := seq, start_x := x, start_y := y, last_x := x, last_y := y
    start_time := now, has_moved := false }

theorem begin_idle_drag (cfg : Config) (h : Handler) (seq : Nat) (x y t : ℚ)
    (hid : h.active_touches = [])
    (hc : cfg.tap_drag_enabled = true ∧ t - h.last_tap_time < cfg.tap_drag_window) :
    on_touch_begin cfg h seq x y t =
      ({ h with
          active_touches := [(seq, mkTouch seq x y t)]
          max_fingers_in_gesture := 1
          any_finger_moved := false
          first_touch_time := t
          tap_drag_active := true
          pointer_accumulator_x := 0
          pointer_accumulator_y := 0
          scroll_accumulator_x := 0
          scroll_accumulator_y := 0 },
        [Action.click leftBtn true]) := by
  simp only [on_touch_begin, hid, List.length_nil, if_pos rfl, mkTouch]
  rw [if_pos hc]
  simp [dictSet]

theorem begin_idle_nodrag (cfg : Config) (h : Handler) (seq : Nat) (x y t : ℚ)
    (hid : h.active_touches = [])
    (hc : ¬(cfg.tap_drag_enabled = true ∧ t - h.last_tap_time < cfg.tap_drag_window)) :
    on_touch_begin cfg h seq x y t =
      ({ h with
          active_touches := [(seq, mkTouch seq x y t)]
          max_fingers_in_gesture := 1
          any_finger_moved := false
          first_touch_time := t
          pointer_accumulator_x := 0
          pointer_accumulator_y := 0
          scroll_accumulator_x := 0
          scroll_accumulator_y := 0 },
        []) := by
  simp only [on_touch_begin, hid, List.length_nil, if_pos rfl, mkTouch]
  rw [if_neg hc]
  simp [dictSet]

theorem end_last_touch (cfg : Config) (h : Handler) (seq : Nat) (ts : TouchState)
    (now : ℚ) (hact : h.active_touches = [(seq, ts)]) :
    on_touch_end cfg h seq now =
      if h.tap_drag_active = true then
        ({ h with active_touches := [], tap_drag_active := false },
          [Action.click leftBtn false])
      else if now - h.first_touch_time > cfg.tap_max_duration then
        ({ h with active_touches := [] }, [])
      else if h.any_finger_moved = true then
        ({ h with active_touches := [] }, [])
      else if h.max_fingers_in_gesture = 1 then
        ({ h with active_touches := [], last_tap_time := now }, [Action.tap leftBtn])
      else if h.max_fingers_in_gesture = 2 then
        ({ h with active_touches := [] }, [Action.tap rightBtn])
      else if 3 ≤ h.max_fingers_in_gesture then
        ({ h with active_touches := [] }, [Action.tap middleBtn])
      else ({ h with active_touches := [] }, []) := by
  have hget : dictGet h.active_touches seq = some ts := by
    rw [hact]
    simp [dictGet]
  have herase : dictErase h.active_touches seq = [] := by
    rw [hact]
    simp [dictErase]
  by_cases h1 : h.tap_drag_active = true
  · simp [on_touch_end, hget, herase, detect_tap_gesture, if_pos h1]
  · by_cases h2 : now - h.first_touch_time > cfg.tap_max_duration
    · simp [on_touch_end, hget, herase, detect_tap_gesture, if_neg h1, if_pos h2]
    · by_cases h3 : h.any_finger_moved = true
      · simp [on_touch_end, hget, herase, detect_tap_gesture, if_neg h1, if_neg h2,
          if_pos h3]
      · by_cases h4 : h.max_fingers_in_gesture = 1
        · simp [on_touch_end, hget, herase, detect_tap_gesture, if_neg h1, if_neg h2,
            if_neg h3, if_pos h4]
        · by_cases h5 : h.max_fingers_in_gesture = 2
          · simp [on_touch_end, hget, herase, detect_tap_gesture, if_neg h1, if_neg h2,
              if_neg h3, if_neg h4, if_pos h5]
          · by_cases h6 : 3 ≤ h.max_fingers_in_gesture
            · simp [on_touch_end, hget, herase, detect_tap_gesture, if_neg h1, if_neg h2,
                if_neg h3, if_neg h4, if_neg h5, if_pos h6]
            · simp [on_touch_end, hget, herase, detect_tap_gesture, if_neg h1, if_neg h2,
                if_neg h3, if_neg h4, if_neg h5, if_neg h6]

theorem cancel_last_touch (h : Handler) (seq : Nat) (ts : TouchState)
    (hact : h.active_touches = [(seq, ts)]) :
    on_touch_cancel h seq =
      (reset_gesture_state
          (if h.tap_drag_active = true then { h with tap_drag_active := false } else h),
        if h.tap_drag_active = true then [Action.click leftBtn false] else []) := by
  have hget : dictGet h.active_touches seq = some ts := by
    rw [hact]
    simp [dictGet]
  have herase : dictErase h.active_touches seq = [] := by
    rw [hact]
    simp [dictErase]
  by_cases h1 : h.tap_drag_active = true
  · simp [on_touch_cancel, hget, herase, reset_gesture_state, if_pos h1]
  · simp [on_touch_cancel, hget, herase, reset_gesture_state, if_neg h1]

/-- Tap classification by peak finger count, as in `_detect_tap_gesture`. -/
def classifyTap (n : Nat) : String :=
  if n = 1 then leftBtn else if n = 2 then rightBtn else middleBtn

/-- C3: when the last remaining contact ends (normal end, not cancelled, not
in tap-drag), exactly one tap is issued iff the session duration is within
the tap-duration threshold and no contact moved beyond the movement
threshold; the tap button is chosen by the peak simultaneous finger count
(1 = left, 2 = right, 3+ = middle); the last-tap timestamp is recorded only
when the peak finger count is 1; any other combination yields no action. -/
theorem tap_classification (cfg : Config) (h : Handler) (seq : Nat) (ts : TouchState)
    (now : ℚ)
    (hact : h.active_touches = [(seq, ts)])
    (hdrag : h.tap_drag_active = false)
    (hmax : 1 ≤ h.max_fingers_in_gesture) :
    (on_touch_end cfg h seq now).1.active_touches = [] ∧
    (if now - h.first_touch_time ≤ cfg.tap_max_duration ∧ h.any_finger_moved = false then
      (on_touch_end cfg h seq now).2 =
        [Action.tap (classifyTap h.max_fingers_in_gesture)] ∧
      (on_touch_end cfg h seq now).1.last_tap_time =
        (if h.max_fingers_in_gesture = 1 then now else h.last_tap_time)
    else
      (on_touch_end cfg h seq now).2 = [] ∧
      (on_touch_end cfg h seq now).1.last_tap_time = h.last_tap_time) := by
  rw [end_last_touch cfg h seq ts now hact]
  cases hb : h.any_finger_moved with
  | false =>
    by_cases h2 : now - h.first_touch_time > cfg.tap_max_duration
    · simp [hdrag, hb, h2, not_le.mpr h2]
    · have h2' : now - h.first_touch_time ≤ cfg.tap_max_duration := not_lt.mp h2
      by_cases h4 : h.max_fingers_in_gesture = 1
      · simp [hdrag, hb, h2, h2', h4, classifyTap]
      · by_cases h5 : h.max_fingers_in_gesture = 2
        · simp [hdrag, hb, h2, h2', h4, h5, classifyTap]
        · have h6 : 3 ≤ h.max_fingers_in_gesture := by omega
          simp [hdrag, hb, h2, h2', h4, h5, h6, classifyTap]
  | true =>
    by_cases h2 : now - h.first_touch_time > cfg.tap_max_duration
    · simp [hdrag, hb, h2]
    · simp [hdrag, hb, h2]

/-- Witness for C3: a 0.1 s single-finger no-movement session ends in
exactly one left tap with the tap time recorded. -/
theorem tap_classification_witness :
    (on_touch_end defaultConfig
        { initHandler with
            active_touches := [(0, mkTouch 0 1 1 0)]
            max_fingers_in_gesture := 1 }
        0 (1 / 10)).1.active_touches = [] ∧
    (if (1 : ℚ) / 10 - ({ initHandler with
            active_touches := [(0, mkTouch 0 1 1 0)]
            max_fingers_in_gesture := 1 } : Handler).first_touch_time ≤
          defaultConfig.tap_max_duration ∧
        ({ initHandler with
            active_touches := [(0, mkTouch 0 1 1 0)]
            max_fingers_in_gesture := 1 } : Handler).any_finger_moved = false then
      (on_touch_end defaultConfig
          { initHandler with
              active_touches := [(0, mkTouch 0 1 1 0)]
              max_fingers_in_gesture := 1 }
          0 (1 / 10)).2 =
        [Action.tap (classifyTap ({ initHandler with
            active_touches := [(0, mkTouch 0 1 1 0)]
            max_fingers_in_gesture := 1 } : Handler).max_fingers_in_gesture)] ∧
      (on_touch_end defaultConfig
          { initHandler with
              active_touches := [(0, mkTouch 0 1 1 0)]
              max_fingers_in_gesture := 1 }
          0 (1 / 10)).1.last_tap_time =
        (if ({ initHandler with
            active_touches := [(0, mkTouch 0 1 1 0)]
            max_fingers_in_gesture := 1 } : Handler).max_fingers_in_gesture = 1 then
          (1 : ℚ) / 10
        else ({ initHandler with
            active_touches := [(0, mkTouch 0 1 1 0)]
            max_fingers_in_gesture := 1 } : Handler).last_tap_time)
    else
      (on_touch_end defaultConfig
          { initHandler with
              active_touches := [(0, mkTouch 0 1 1 0)]
              max_fingers_in_gesture := 1 }
          0 (1 / 10)).2 = [] ∧
      (on_touch_end defaultConfig
          { initHandler with
              active_touches := [(0, mkTouch 0 1 1 0)]
              max_fingers_in_gesture := 1 }
          0 (1 / 10)).1.last_tap_time =
        ({ initHandler with
            active_touches := [(0, mkTouch 0 1 1 0)]
            max_fingers_in_gesture := 1 } : Handler).last_tap_time) :=
  tap_classification defaultConfig
    { initHandler with
        active_touches := [(0, mkTouch 0 1 1 0)]
        max_fingers_in_gesture := 1 }
    0 (mkTouch 0 1 1 0) (1 / 10) rfl rfl (by norm_num)

/-- C8: when a cancel removes the last remaining contact, no tap
classification is performed and no tap is emitted regardless of session
duration, movement or peak finger count; the left button is released iff
tap-drag was active; and the active-touch table, the four sub-pixel
accumulators, the peak finger count and the moved flag are all cleared. -/
theorem cancel_clears_without_tap (h : Handler) (seq : Nat) (ts : TouchState)
    (hact : h.active_touches = [(seq, ts)]) :
    ((on_touch_cancel h seq).2 =
      if h.tap_drag_active = true then [Action.click leftBtn false] else []) ∧
    (∀ b, Action.tap b ∉ (on_touch_cancel h seq).2) ∧
    (on_touch_cancel h seq).1.active_touches = [] ∧
    (on_touch_cancel h seq).1.pointer_accumulator_x = 0 ∧
    (on_touch_cancel h seq).1.pointer_accumulator_y = 0 ∧
    (on_touch_cancel h seq).1.scroll_accumulator_x = 0 ∧
    (on_touch_cancel h seq).1.scroll_accumulator_y = 0 ∧
    (on_touch_cancel h seq).1.max_fingers_in_gesture = 0 ∧
    (on_touch_cancel h seq).1.any_finger_moved = false ∧
    (on_touch_cancel h seq).1.tap_drag_active = false := by
  rw [cancel_last_touch h seq ts hact]
  by_cases h1 : h.tap_drag_active = true
  · rw [if_pos h1]
    refine ⟨by rw [if_pos h1], ?_, rfl, rfl, rfl, rfl, rfl, rfl, rfl, rfl⟩
    intro b
    simp [reset_gesture_state]
  · rw [if_neg h1]
    have h1' : h.tap_drag_active = false := by
      cases hb : h.tap_drag_active
      · rfl
      · exact absurd hb h1
    refine ⟨by rw [if_neg h1], ?_, rfl, rfl, rfl, rfl, rfl, rfl, rfl, ?_⟩
    · intro b
      simp [reset_gesture_state]
    · exact h1'

/-- Witness for C8: cancelling the only contact of a tap-drag session. -/
theorem cancel_clears_without_tap_witness :
    ((on_touch_cancel
        { initHandler with
            active_touches := [(3, mkTouch 3 2 2 0)]
            tap_drag_active := true }
        3).2 =
      if ({ initHandler with
          active_touches := [(3, mkTouch 3 2 2 0)]
          tap_drag_active := true } : Handler).tap_drag_active = true then
        [Action.click leftBtn false]
      else []) ∧
    (∀ b, Action.tap b ∉ (on_touch_cancel
        { initHandler with
            active_touches := [(3, mkTouch 3 2 2 0)]
            tap_drag_active := true }
        3).2) ∧
    (on_touch_cancel
        { initHandler with
            active_touches := [(3, mkTouch 3 2 2 0)]
            tap_drag_active := true }
        3).1.active_touches = [] ∧
    (on_touch_cancel
        { initHandler with
            active_touches := [(3, mkTouch 3 2 2 0)]
            tap_drag_active := true }
        3).1.pointer_accumulator_x = 0 ∧
    (on_touch_cancel
        { initHandler with
            active_touches := [(3, mkTouch 3 2 2 0)]
            tap_drag_active := true }
        3).1.pointer_accumulator_y = 0 ∧
    (on_touch_cancel
        { initHandler with
            active_touches := [(3, mkTouch 3 2 2 0)]
            tap_drag_active := true }
        3).1.scroll_accumulator_x = 0 ∧
    (on_touch_cancel
        { initHandler with
            active_touches := [(3, mkTouch 3 2 2 0)]
            tap_drag_active := true }
        3).1.scroll_accumulator_y = 0 ∧
    (on_touch_cancel
        { initHandler with
            active_touches := [(3, mkTouch 3 2 2 0)]
            tap_drag_active := true }
        3).1.max_fingers_in_gesture = 0 ∧
    (on_touch_cancel
        { initHandler with
            active_touches := [(3, mkTouch 3 2 2 0)]
            tap_drag_active := true }
        3).1.any_finger_moved = false ∧
    (on_touch_cancel
        { initHandler with
            active_touches := [(3, mkTouch 3 2 2 0)]
            tap_drag_active := true }
        3).1.tap_drag_active = false :=
  cancel_clears_without_tap
    { initHandler with
        active_touches := [(3, mkTouch 3 2 2 0)]
        tap_drag_active := true }
    3 (mkTouch 3 2 2 0) rfl

/-! ### C2: single-finger sessions that exceed the movement threshold -/

/-- A per-contact update event for contact `seq` at position `p`. -/
def mkUpd (seq : Nat) (p : ℚ × ℚ) : Ev := Ev.update seq p.1 p.2

/-- Whether an update to position `p` puts contact `ts` past the
tap movement threshold (Manhattan distance from its start point). -/
def movedAt (cfg : Config) (ts : TouchState) (p : ℚ × ℚ) : Bool :=
  decide (|p.1 - ts.start_x| + |p.2 - ts.start_y| > cfg.tap_max_movement)

theorem bool_or_rotate (a b c : Bool) : ((b || a) || c) = (a || (b || c)) := by
  cases a <;> cases b <;> cases c <;> rfl

theorem single_motion_fields (cfg : Config) (h : Handler) (dx dy : ℚ) :
    (process_single_finger_motion cfg h dx dy).1.active_touches = h.active_touches ∧
    (process_single_finger_motion cfg h dx dy).1.max_fingers_in_gesture =
      h.max_fingers_in_gesture ∧
    (process_single_finger_motion cfg h dx dy).1.any_finger_moved =
      h.any_finger_moved ∧
    (process_single_finger_motion cfg h dx dy).1.first_touch_time =
      h.first_touch_time ∧
    (process_single_finger_motion cfg h dx dy).1.last_tap_time = h.last_tap_time ∧
    (process_single_finger_motion cfg h dx dy).1.tap_drag_active =
      h.tap_drag_active ∧
    (∀ a ∈ (process_single_finger_motion cfg h dx dy).2,
      ∃ i j, a = Action.movePointer i j) := by
  simp only [process_single_finger_motion]
  split
  · refine ⟨rfl, rfl, rfl, rfl, rfl, rfl, ?_⟩
    intro a ha
    simp only [List.mem_singleton] at ha
    exact ⟨_, _, ha⟩
  · refine ⟨rfl, rfl, rfl, rfl, rfl, rfl, ?_⟩
    intro a ha
    simp at ha

/-- The touch state after `_on_touch_update` moves contact `ts` to `(x, y)`. -/
def updTouch (cfg : Config) (ts : TouchState) (x y : ℚ) : TouchState :=
  { ts with
    last_x := x
    last_y := y
    has_moved := movedAt cfg ts (x, y) || ts.has_moved }

theorem update_single_touch (cfg : Config) (h : Handler) (seq : Nat)
    (ts : TouchState) (x y : ℚ) (hact : h.active_touches = [(seq, ts)]) :
    on_touch_update cfg h seq x y =
      process_single_finger_motion cfg
        { h with
            active_touches := [(seq, updTouch cfg ts x y)]
            any_finger_moved := movedAt cfg ts (x, y) || h.any_finger_moved }
        (x - ts.last_x) (y - ts.last_y) := by
  have hget : dictGet [(seq, ts)] seq = some ts := by
    simp [dictGet]
  by_cases hm : |x - ts.start_x| + |y - ts.start_y| > cfg.tap_max_movement
  · simp [on_touch_update, hact, hget, dictSet, updTouch, movedAt, hm]
  · simp [on_touch_update, hact, hget, dictSet, updTouch, movedAt, hm]

theorem updates_single_finger (cfg : Config) (seq : Nat) (us : List (ℚ × ℚ)) :
    ∀ (h : Handler) (ts : TouchState), h.active_touches = [(seq, ts)] →
    ∃ ts' : TouchState,
      (runEvents cfg h (us.map (mkUpd seq))).1.active_touches = [(seq, ts')] ∧
      ts'.start_x = ts.start_x ∧
      ts'.start_y = ts.start_y ∧
      ts'.last_x = (us.map Prod.fst).getLastD ts.last_x ∧
      ts'.last_y = (us.map Prod.snd).getLastD ts.last_y ∧
      (runEvents cfg h (us.map (mkUpd seq))).1.max_fingers_in_gesture =
        h.max_fingers_in_gesture ∧
      (runEvents cfg h (us.map (mkUpd seq))).1.tap_drag_active = h.tap_drag_active ∧
      (runEvents cfg h (us.map (mkUpd seq))).1.first_touch_time =
        h.first_touch_time ∧
      (runEvents cfg h (us.map (mkUpd seq))).1.last_tap_time = h.last_tap_time ∧
      (runEvents cfg h (us.map (mkUpd seq))).1.any_finger_moved =
        (h.any_finger_moved || us.any (movedAt cfg ts)) ∧
      ((sumMoveX (runEvents cfg h (us.map (mkUpd seq))).2 : ℚ) +
          (runEvents cfg h (us.map (mkUpd seq))).1.pointer_accumulator_x =
        h.pointer_accumulator_x +
          ((us.map Prod.fst).getLastD ts.last_x - ts.last_x) *
            cfg.pointer_sensitivity) ∧
      ((sumMoveY (runEvents cfg h (us.map (mkUpd seq))).2 : ℚ) +
          (runEvents cfg h (us.map (mkUpd seq))).1.pointer_accumulator_y =
        h.pointer_accumulator_y +
          ((us.map Prod.snd).getLastD ts.last_y - ts.last_y) *
            cfg.pointer_sensitivity) ∧
      (∀ a ∈ (runEvents cfg h (us.map (mkUpd seq))).2,
        ∃ i j, a = Action.movePointer i j) := by
  induction us with
  | nil =>
    intro h ts hact
    refine ⟨ts, ?_, rfl, rfl, rfl, rfl, rfl, rfl, rfl, rfl, ?_, ?_, ?_, ?_⟩
    · simpa [runEvents] using hact
    · simp [runEvents]
    · simp [runEvents, sumMoveX]
    · simp [runEvents, sumMoveY]
    · intro a ha
      simp [runEvents] at ha
  | cons p rest ih =>
    intro h ts hact
    simp only [List.map_cons, runEvents, step, mkUpd]
    rw [update_single_touch cfg h seq ts p.1 p.2 hact]
    have hf := single_motion_fields cfg
      { h with
          active_touches := [(seq, updTouch cfg ts p.1 p.2)]
          any_finger_moved := movedAt cfg ts (p.1, p.2) || h.any_finger_moved }
      (p.1 - ts.last_x) (p.2 - ts.last_y)
    obtain ⟨ts', hA, hsx, hsy, hlx, hly, hmax, hdrag, hft, hlt, hany, hSX, hSY,
      hmem⟩ := ih
        (process_single_finger_motion cfg
          { h with
              active_touches := [(seq, updTouch cfg ts p.1 p.2)]
              any_finger_moved := movedAt cfg ts (p.1, p.2) || h.any_finger_moved }
          (p.1 - ts.last_x) (p.2 - ts.last_y)).1
        (updTouch cfg ts p.1 p.2) (by rw [hf.1])
    have hmoved_fun : movedAt cfg (updTouch cfg ts p.1 p.2) = movedAt cfg ts := by
      funext q
      simp [movedAt, updTouch]
    refine ⟨ts', hA, ?_, ?_, ?_, ?_, ?_, ?_, ?_, ?_, ?_, ?_, ?_, ?_⟩
    · rw [hsx]; rfl
    · rw [hsy]; rfl
    · rw [hlx, List.getLastD_cons]
      rfl
    · rw [hly, List.getLastD_cons]
      rfl
    · rw [hmax, hf.2.1]
    · rw [hdrag, hf.2.2.2.2.2.1]
    · rw [hft, hf.2.2.2.1]
    · rw [hlt, hf.2.2.2.2.1]
    · rw [hany, hf.2.2.1, hmoved_fun, List.any_cons]
      exact bool_or_rotate h.any_finger_moved (movedAt cfg ts (p.1, p.2))
        (rest.any (movedAt cfg ts))
    · rw [sumMoveX_append]
      have h1 := single_motion_sumX cfg
        { h with
            active_touches := [(seq, updTouch cfg ts p.1 p.2)]
            any_finger_moved := movedAt cfg ts (p.1, p.2) || h.any_finger_moved }
        (p.1 - ts.last_x) (p.2 - ts.last_y)
      have hpx : ({ h with
          active_touches := [(seq, updTouch cfg ts p.1 p.2)]
          any_finger_moved := movedAt cfg ts (p.1, p.2) || h.any_finger_moved } :
            Handler).pointer_accumulator_x = h.pointer_accumulator_x := rfl
      rw [hpx] at h1
      have hupd_lx : (updTouch cfg ts p.1 p.2).last_x = p.1 := rfl
      rw [hupd_lx] at hSX
      simp only [List.getLastD_cons]
      push_cast
      linarith
    · rw [sumMoveY_append]
      have h1 := single_motion_sumY cfg
        { h with
            active_touches := [(seq, updTouch cfg ts p.1 p.2)]
            any_finger_moved := movedAt cfg ts (p.1, p.2) || h.any_finger_moved }
        (p.1 - ts.last_x) (p.2 - ts.last_y)
      have hpy : ({ h with
          active_touches := [(seq, updTouch cfg ts p.1 p.2)]
          any_finger_moved := movedAt cfg ts (p.1, p.2) || h.any_finger_moved } :
            Handler).pointer_accumulator_y = h.pointer_accumulator_y := rfl
      rw [hpy] at h1
      have hupd_ly : (updTouch cfg ts p.1 p.2).last_y = p.2 := rfl
      rw [hupd_ly] at hSY
      simp only [List.getLastD_cons]
      push_cast
      linarith
    · intro a ha
      rcases List.mem_append.mp ha with h1 | h1
      · exact hf.2.2.2.2.2.2 a h1
      · exact hmem a h1

theorem runEvents_append (cfg : Config) (l1 l2 : List Ev) :
    ∀ h : Handler,
      runEvents cfg h (l1 ++ l2) =
        ((runEvents cfg (runEvents cfg h l1).1 l2).1,
          (runEvents cfg h l1).2 ++ (runEvents cfg (runEvents cfg h l1).1 l2).2) := by
  induction l1 with
  | nil => intro h; simp [runEvents]
  | cons e es ih =>
    intro h
    show runEvents cfg h (e :: (es ++ l2)) = _
    simp only [runEvents]
    rw [ih]
    simp [List.append_assoc]

theorem end_after_moved (cfg : Config) (h2 : Handler) (seq : Nat)
    (ts' : TouchState) (t1 : ℚ)
    (hA : h2.active_touches = [(seq, ts')])
    (hany : h2.any_finger_moved = true) :
    ((on_touch_end cfg h2 seq t1).2 =
      if h2.tap_drag_active = true then [Action.click leftBtn false] else []) ∧
    (on_touch_end cfg h2 seq t1).1.pointer_accumulator_x =
      h2.pointer_accumulator_x ∧
    (on_touch_end cfg h2 seq t1).1.pointer_accumulator_y =
      h2.pointer_accumulator_y := by
  rw [end_last_touch cfg h2 seq ts' t1 hA]
  by_cases hd : h2.tap_drag_active = true
  · simp [hd]
  · by_cases ht : t1 - h2.first_touch_time > cfg.tap_max_duration
    · simp [hd, ht]
    · simp [hd, ht, hany]

/-- C2: in a single-finger session (begin, a sequence of position updates,
end) in which some update takes the contact beyond the tap movement
threshold, the engine emits no tap on release, and the pointer-move actions
emitted account exactly for the scaled net displacement: the cumulative
integer movement sent plus the retained sub-pixel remainder equals the
pointer sensitivity times the net displacement of the finger. -/
theorem single_finger_moved_session (cfg : Config) (h : Handler) (seq : Nat)
    (x0 y0 t0 t1 : ℚ) (us : List (ℚ × ℚ))
    (hidle : h.active_touches = [])
    (hmoved : ∃ p ∈ us, |p.1 - x0| + |p.2 - y0| > cfg.tap_max_movement) :
    (∀ b, Action.tap b ∉
      (runEvents cfg h (Ev.begin seq x0 y0 t0 ::
        (us.map (mkUpd seq) ++ [Ev.touchEnd seq t1]))).2) ∧
    ((sumMoveX (runEvents cfg h (Ev.begin seq x0 y0 t0 ::
          (us.map (mkUpd seq) ++ [Ev.touchEnd seq t1]))).2 : ℚ) +
        (runEvents cfg h (Ev.begin seq x0 y0 t0 ::
          (us.map (mkUpd seq) ++ [Ev.touchEnd seq t1]))).1.pointer_accumulator_x =
      ((us.map Prod.fst).getLastD x0 - x0) * cfg.pointer_sensitivity) ∧
    ((sumMoveY (runEvents cfg h (Ev.begin seq x0 y0 t0 ::
          (us.map (mkUpd seq) ++ [Ev.touchEnd seq t1]))).2 : ℚ) +
        (runEvents cfg h (Ev.begin seq x0 y0 t0 ::
          (us.map (mkUpd seq) ++ [Ev.touchEnd seq t1]))).1.pointer_accumulator_y =
      ((us.map Prod.snd).getLastD y0 - y0) * cfg.pointer_sensitivity) := by
  have hsplit : ∀ (h1 : Handler) (tr0 : List Action),
      step cfg h (Ev.begin seq x0 y0 t0) = (h1, tr0) →
      h1.active_touches = [(seq, mkTouch seq x0 y0 t0)] →
      h1.pointer_accumulator_x = 0 →
      h1.pointer_accumulator_y = 0 →
      h1.any_finger_moved = false →
      (∀ b, Action.tap b ∉ tr0) →
      sumMoveX tr0 = 0 →
      sumMoveY tr0 = 0 →
      (∀ b, Action.tap b ∉
        (runEvents cfg h (Ev.begin seq x0 y0 t0 ::
          (us.map (mkUpd seq) ++ [Ev.touchEnd seq t1]))).2) ∧
      ((sumMoveX (runEvents cfg h (Ev.begin seq x0 y0 t0 ::
            (us.map (mkUpd seq) ++ [Ev.touchEnd seq t1]))).2 : ℚ) +
          (runEvents cfg h (Ev.begin seq x0 y0 t0 ::
            (us.map (mkUpd seq) ++ [Ev.touchEnd seq t1]))).1.pointer_accumulator_x =
        ((us.map Prod.fst).getLastD x0 - x0) * cfg.pointer_sensitivity) ∧
      ((sumMoveY (runEvents cfg h (Ev.begin seq x0 y0 t0 ::
            (us.map (mkUpd seq) ++ [Ev.touchEnd seq t1]))).2 : ℚ) +
          (runEvents cfg h (Ev.begin seq x0 y0 t0 ::
            (us.map (mkUpd seq) ++ [Ev.touchEnd seq t1]))).1.pointer_accumulator_y =
        ((us.map Prod.snd).getLastD y0 - y0) * cfg.pointer_sensitivity) := by
    intro h1 tr0 hstep hact1 hpx1 hpy1 hmv1 htap0 hsx0 hsy0
    obtain ⟨ts', hA, hsx, hsy, hlx, hly, hmax, hdrag, hft, hlt, hany, hSX, hSY,
      hmem⟩ := updates_single_finger cfg seq us h1 (mkTouch seq x0 y0 t0) hact1
    have hanyT : (runEvents cfg h1 (us.map (mkUpd seq))).1.any_finger_moved = true := by
      rw [hany, hmv1]
      obtain ⟨p, hp, hgt⟩ := hmoved
      have : us.any (movedAt cfg (mkTouch seq x0 y0 t0)) = true := by
        rw [List.any_eq_true]
        exact ⟨p, hp, by simp [movedAt, mkTouch]; exact hgt⟩
      rw [this]
      rfl
    have hend := end_after_moved cfg (runEvents cfg h1 (us.map (mkUpd seq))).1 seq
      ts' t1 hA hanyT
    have hrun : runEvents cfg h (Ev.begin seq x0 y0 t0 ::
        (us.map (mkUpd seq) ++ [Ev.touchEnd seq t1])) =
        ((runEvents cfg (runEvents cfg h1 (us.map (mkUpd seq))).1
            [Ev.touchEnd seq t1]).1,
          tr0 ++ ((runEvents cfg h1 (us.map (mkUpd seq))).2 ++
            (runEvents cfg (runEvents cfg h1 (us.map (mkUpd seq))).1
              [Ev.touchEnd seq t1]).2)) := by
      simp only [runEvents, hstep]
      rw [runEvents_append cfg (us.map (mkUpd seq)) [Ev.touchEnd seq t1] h1]
      simp [runEvents]
    have hendstep : runEvents cfg (runEvents cfg h1 (us.map (mkUpd seq))).1
        [Ev.touchEnd seq t1] =
        ((on_touch_end cfg (runEvents cfg h1 (us.map (mkUpd seq))).1 seq t1).1,
          (on_touch_end cfg (runEvents cfg h1 (us.map (mkUpd seq))).1 seq t1).2) := by
      simp [runEvents, step]
    rw [hendstep] at hrun
    refine ⟨?_, ?_, ?_⟩
    · intro b hmemb
      rw [hrun] at hmemb
      simp only [List.mem_append] at hmemb
      rcases hmemb with hm1 | hm2 | hm3
      · exact htap0 b hm1
      · obtain ⟨i, j, hij⟩ := hmem _ hm2
        simp at hij
      · rw [hend.1] at hm3
        by_cases hd : (runEvents cfg h1 (us.map (mkUpd seq))).1.tap_drag_active = true
        · rw [if_pos hd] at hm3
          simp at hm3
        · rw [if_neg hd] at hm3
          simp at hm3
    · rw [hrun]
      simp only [sumMoveX_append]
      have hE : sumMoveX (on_touch_end cfg
          (runEvents cfg h1 (us.map (mkUpd seq))).1 seq t1).2 = 0 := by
        rw [hend.1]
        by_cases hd : (runEvents cfg h1 (us.map (mkUpd seq))).1.tap_drag_active = true
        · rw [if_pos hd]; rfl
        · rw [if_neg hd]; rfl
      rw [hsx0, hE, hend.2.1]
      rw [hpx1] at hSX
      have hstart : (mkTouch seq x0 y0 t0).last_x = x0 := rfl
      rw [hstart] at hSX
      push_cast
      linarith
    · rw [hrun]
      simp only [sumMoveY_append]
      have hE : sumMoveY (on_touch_end cfg
          (runEvents cfg h1 (us.map (mkUpd seq))).1 seq t1).2 = 0 := by
        rw [hend.1]
        by_cases hd : (runEvents cfg h1 (us.map (mkUpd seq))).1.tap_drag_active = true
        · rw [if_pos hd]; rfl
        · rw [if_neg hd]; rfl
      rw [hsy0, hE, hend.2.2]
      rw [hpy1] at hSY
      have hstart : (mkTouch seq x0 y0 t0).last_y = y0 := rfl
      rw [hstart] at hSY
      push_cast
      linarith
  by_cases hc : cfg.tap_drag_enabled = true ∧ t0 - h.last_tap_time < cfg.tap_drag_window
  · refine hsplit
      { h with
          active_touches := [(seq, mkTouch seq x0 y0 t0)]
          max_fingers_in_gesture := 1
          any_finger_moved := false
          first_touch_time := t0
          tap_drag_active := true
          pointer_accumulator_x := 0
          pointer_accumulator_y := 0
          scroll_accumulator_x := 0
          scroll_accumulator_y := 0 }
      [Action.click leftBtn true]
      (by simp only [step]; rw [begin_idle_drag cfg h seq x0 y0 t0 hidle hc])
      rfl rfl rfl rfl ?_ rfl rfl
    intro b hb
    simp at hb
  · refine hsplit
      { h with
          active_touches := [(seq, mkTouch seq x0 y0 t0)]
          max_fingers_in_gesture := 1
          any_finger_moved := false
          first_touch_time := t0
          pointer_accumulator_x := 0
          pointer_accumulator_y := 0
          scroll_accumulator_x := 0
          scroll_accumulator_y := 0 }
      []
      (by simp only [step]; rw [begin_idle_nodrag cfg h seq x0 y0 t0 hidle hc])
      rfl rfl rfl rfl ?_ rfl rfl
    intro b hb
    simp at hb

/-- Witness for C2: a 40-unit single-finger swipe in 0.1 s produces no tap
and its pointer-move total plus remainder equals sensitivity times 40. -/
theorem single_finger_moved_session_witness :
    (∀ b, Action.tap b ∉
      (runEvents defaultConfig initHandler (Ev.begin 0 0 0 1 ::
        (([((40 : ℚ), (0 : ℚ))].map (mkUpd 0)) ++ [Ev.touchEnd 0 (11 / 10)]))).2) ∧
    ((sumMoveX (runEvents defaultConfig initHandler (Ev.begin 0 0 0 1 ::
          (([((40 : ℚ), (0 : ℚ))].map (mkUpd 0)) ++
            [Ev.touchEnd 0 (11 / 10)]))).2 : ℚ) +
        (runEvents defaultConfig initHandler (Ev.begin 0 0 0 1 ::
          (([((40 : ℚ), (0 : ℚ))].map (mkUpd 0)) ++
            [Ev.touchEnd 0 (11 / 10)]))).1.pointer_accumulator_x =
      (([((40 : ℚ), (0 : ℚ))].map Prod.fst).getLastD 0 - 0) *
        defaultConfig.pointer_sensitivity) ∧
    ((sumMoveY (runEvents defaultConfig initHandler (Ev.begin 0 0 0 1 ::
          (([((40 : ℚ), (0 : ℚ))].map (mkUpd 0)) ++
            [Ev.touchEnd 0 (11 / 10)]))).2 : ℚ) +
        (runEvents defaultConfig initHandler (Ev.begin 0 0 0 1 ::
          (([((40 : ℚ), (0 : ℚ))].map (mkUpd 0)) ++
            [Ev.touchEnd 0 (11 / 10)]))).1.pointer_accumulator_y =
      (([((40 : ℚ), (0 : ℚ))].map Prod.snd).getLastD 0 - 0) *
        defaultConfig.pointer_sensitivity) :=
  single_finger_moved_session defaultConfig initHandler 0 0 0 1 (11 / 10)
    [((40 : ℚ), (0 : ℚ))] rfl
    ⟨(40, 0), by simp, by norm_num [defaultConfig]⟩

/-! ### C4: tap-drag lifecycle -/

/-- True iff processing `es` from `h` keeps at least one contact alive
after every event except the last, and the last event empties the
active-touch table (the session ends exactly at the last event). -/
def endsSession (cfg : Config) (h : Handler) : List Ev → Bool
  | [] => false
  | e :: es =>
    if es.isEmpty then (step cfg h e).1.active_touches.isEmpty
    else !(step cfg h e).1.active_touches.isEmpty &&
      endsSession cfg (step cfg h e).1 es

theorem countAct_append (a b : List Action) (x : Action) :
    countAct (a ++ b) x = countAct a x + countAct b x := by
  simp [countAct, List.filter_append]

theorem dictSet_ne_nil (l : List (Nat × TouchState)) (k : Nat) (v : TouchState) :
    dictSet l k v ≠ [] := by
  cases l with
  | nil => simp [dictSet]
  | cons p rest =>
    obtain ⟨k', v'⟩ := p
    by_cases h : k' = k
    · simp [dictSet, h]
    · simp [dictSet, h]

theorem two_motion_fields (cfg : Config) (h : Handler) (dx dy : ℚ) :
    (process_two_finger_motion cfg h dx dy).1.active_touches = h.active_touches ∧
    (process_two_finger_motion cfg h dx dy).1.tap_drag_active = h.tap_drag_active ∧
    (∀ a ∈ (process_two_finger_motion cfg h dx dy).2, ∃ i j, a = Action.scroll i j) := by
  simp only [process_two_finger_motion]
  split
  · refine ⟨rfl, rfl, ?_⟩
    intro a ha
    simp only [List.mem_singleton] at ha
    exact ⟨_, _, ha⟩
  · refine ⟨rfl, rfl, ?_⟩
    intro a ha
    simp at ha

theorem countAct_movePointer_zero (tr : List Action)
    (htr : ∀ a ∈ tr, ∃ i j, a = Action.movePointer i j) (b : String) (p : Bool) :
    countAct tr (Action.click b p) = 0 := by
  simp only [countAct, List.length_eq_zero, List.filter_eq_nil_iff]
  intro a ha
  obtain ⟨i, j, hij⟩ := htr a ha
  simp [hij]

theorem countAct_scroll_zero (tr : List Action)
    (htr : ∀ a ∈ tr, ∃ i j, a = Action.scroll i j) (b : String) (p : Bool) :
    countAct tr (Action.click b p) = 0 := by
  simp only [countAct, List.length_eq_zero, List.filter_eq_nil_iff]
  intro a ha
  obtain ⟨i, j, hij⟩ := htr a ha
  simp [hij]

theorem step_drag_live (cfg : Config) (h : Handler) (e : Ev)
    (hd : h.tap_drag_active = true) (ha : h.active_touches ≠ []) :
    ((step cfg h e).1.tap_drag_active = true ∧
      (step cfg h e).1.active_touches ≠ [] ∧
      countAct (step cfg h e).2 (Action.click leftBtn true) = 0 ∧
      countAct (step cfg h e).2 (Action.click leftBtn false) = 0) ∨
    ((step cfg h e).1.active_touches = [] ∧
      (step cfg h e).1.tap_drag_active = false ∧
      (step cfg h e).2 = [Action.click leftBtn false]) := by
  have hlen : ¬h.active_touches.length = 0 := by
    simpa [List.length_eq_zero] using ha
  cases e with
  | begin seq x y t =>
    left
    simp only [step, on_touch_begin, if_neg hlen]
    exact ⟨hd, dictSet_ne_nil _ _ _, rfl, rfl⟩
  | update seq x y =>
    rcases hg : dictGet h.active_touches seq with _ | touch
    · left
      simp only [step, on_touch_update, hg]
      exact ⟨hd, ha, rfl, rfl⟩
    · left
      simp only [step, on_touch_update, hg]
      split
      all_goals split
      all_goals try split
      all_goals first
        | exact ⟨hd, dictSet_ne_nil _ _ _, rfl, rfl⟩
        | exact ⟨by rw [(single_motion_fields cfg _ _ _).2.2.2.2.2.1]; exact hd,
            by rw [(single_motion_fields cfg _ _ _).1]; exact dictSet_ne_nil _ _ _,
            countAct_movePointer_zero _
              (single_motion_fields cfg _ _ _).2.2.2.2.2.2 _ _,
            countAct_movePointer_zero _
              (single_motion_fields cfg _ _ _).2.2.2.2.2.2 _ _⟩
        | exact ⟨by rw [(two_motion_fields cfg _ _ _).2.1]; exact hd,
            by rw [(two_motion_fields cfg _ _ _).1]; exact dictSet_ne_nil _ _ _,
            countAct_scroll_zero _ (two_motion_fields cfg _ _ _).2.2 _ _,
            countAct_scroll_zero _ (two_motion_fields cfg _ _ _).2.2 _ _⟩
  | touchEnd seq t =>
    by_cases hg : (dictGet h.active_touches seq).isSome = true
    case neg =>
      left
      simp only [step, on_touch_end, if_neg hg]
      exact ⟨hd, ha, rfl, rfl⟩
    case pos =>
      by_cases hlen2 : (dictErase h.active_touches seq).length = 0
      · right
        simp only [step, on_touch_end, if_pos hg, if_pos hlen2, hd, if_pos rfl]
        exact ⟨List.length_eq_zero.mp hlen2, rfl, rfl⟩
      · left
        simp only [step, on_touch_end, if_pos hg, if_neg hlen2]
        exact ⟨hd, fun hnil => hlen2 (by rw [hnil]; rfl), rfl, rfl⟩
  | cancel seq =>
    by_cases hg : (dictGet h.active_touches seq).isSome = true
    case pos =>
      by_cases hlen2 : (dictErase h.active_touches seq).length = 0
      · right
        simp only [step, on_touch_cancel, if_pos hg, if_pos hlen2, hd, if_pos rfl]
        exact ⟨rfl, rfl, rfl⟩
      · left
        simp only [step, on_touch_cancel, if_pos hg, if_neg hlen2]
        exact ⟨hd, fun hnil => hlen2 (by rw [hnil]; rfl), rfl, rfl⟩
    case neg =>
      by_cases hlen2 : h.active_touches.length = 0
      · exact absurd (List.length_eq_zero.mp hlen2) ha
      · left
        simp only [step, on_touch_cancel, if_neg hg, if_neg hlen2]
        exact ⟨hd, ha, rfl, rfl⟩

theorem drag_session_end (cfg : Config) :
    ∀ (es : List Ev) (h : Handler),
      h.tap_drag_active = true → h.active_touches ≠ [] →
      endsSession cfg h es = true →
      countAct (runEvents cfg h es).2 (Action.click leftBtn true) = 0 ∧
      countAct (runEvents cfg h es).2 (Action.click leftBtn false) = 1 ∧
      (runEvents cfg h es).1.tap_drag_active = false ∧
      (runEvents cfg h es).1.active_touches = [] := by
  intro es
  induction es with
  | nil =>
    intro h hd ha hE
    simp [endsSession] at hE
  | cons e es ih =>
    intro h hd ha hE
    rcases es with _ | ⟨e2, es2⟩
    · rw [show endsSession cfg h [e] =
          (step cfg h e).1.active_touches.isEmpty from rfl] at hE
      rcases step_drag_live cfg h e hd ha with ⟨_, hne, _, _⟩ | ⟨hnil, hd', htr⟩
      · rw [List.isEmpty_iff] at hE
        exact absurd hE hne
      · simp only [runEvents, htr]
        refine ⟨?_, ?_, hd', hnil⟩
        · simp [countAct, leftBtn]
        · simp [countAct, leftBtn]
    · rw [show endsSession cfg h (e :: e2 :: es2) =
          (!(step cfg h e).1.active_touches.isEmpty &&
            endsSession cfg (step cfg h e).1 (e2 :: es2)) from rfl] at hE
      rw [Bool.and_eq_true, Bool.not_eq_true'] at hE
      rcases step_drag_live cfg h e hd ha with ⟨hd1, hne1, hc1, hc0⟩ | ⟨hnil, _, _⟩
      · have hrest := ih (step cfg h e).1 hd1 hne1 hE.2
        rw [show runEvents cfg h (e :: e2 :: es2) =
            ((runEvents cfg (step cfg h e).1 (e2 :: es2)).1,
              (step cfg h e).2 ++
                (runEvents cfg (step cfg h e).1 (e2 :: es2)).2) from rfl]
        simp only [countAct_append]
        rw [hc1, hc0, hrest.1, hrest.2.1]
        exact ⟨rfl, rfl, hrest.2.2.1, hrest.2.2.2⟩
      · rw [hnil] at hE
        simp at hE

theorem step_idleNoDrag (cfg : Config) (h : Handler) (e : Ev)
    (hi : h.active_touches = [] → h.tap_drag_active = false) :
    (step cfg h e).1.active_touches = [] → (step cfg h e).1.tap_drag_active = false := by
  cases e with
  | begin seq x y t =>
    intro hnil
    exact absurd hnil (by simp only [step, on_touch_begin]; split <;> first
      | (split <;> exact dictSet_ne_nil _ _ _)
      | exact dictSet_ne_nil _ _ _)
  | update seq x y =>
    rcases hg : dictGet h.active_touches seq with _ | touch
    · simp only [step, on_touch_update, hg]
      exact hi
    · intro hnil
      exact absurd hnil (by
        simp only [step, on_touch_update, hg]
        split
        all_goals split
        all_goals try split
        all_goals first
          | (rw [(single_motion_fields cfg _ _ _).1]; exact dictSet_ne_nil _ _ _)
          | (rw [(two_motion_fields cfg _ _ _).1]; exact dictSet_ne_nil _ _ _)
          | exact dictSet_ne_nil _ _ _)
  | touchEnd seq t =>
    by_cases hg : (dictGet h.active_touches seq).isSome = true
    · by_cases hlen2 : (dictErase h.active_touches seq).length = 0
      · by_cases hdr : h.tap_drag_active = true
        · simp only [step, on_touch_end, if_pos hg, if_pos hlen2, if_pos hdr]
          intro _
          trivial
        · simp only [step, on_touch_end, if_pos hg, if_pos hlen2, if_neg hdr]
          intro _
          have hdr' : h.tap_drag_active = false := by
            cases hb : h.tap_drag_active
            · rfl
            · exact absurd hb hdr
          rcases hres : (detect_tap_gesture cfg
              { h with active_touches := dictErase h.active_touches seq } t).2
            with _ | btn
          · simp only [hres]
            rw [show (detect_tap_gesture cfg
                { h with active_touches := dictErase h.active_touches seq }
                t).1.tap_drag_active = h.tap_drag_active from ?_]
            · exact hdr'
            · simp only [detect_tap_gesture]
              repeat' split
              all_goals rfl
          · simp only [hres]
            rw [show (detect_tap_gesture cfg
                { h with active_touches := dictErase h.active_touches seq }
                t).1.tap_drag_active = h.tap_drag_active from ?_]
            · exact hdr'
            · simp only [detect_tap_gesture]
              repeat' split
              all_goals rfl
      · simp only [step, on_touch_end, if_pos hg, if_neg hlen2]
        intro hnil
        exact absurd (by rw [hnil]; rfl) hlen2
    · simp only [step, on_touch_end, if_neg hg]
      exact hi
  | cancel seq =>
    by_cases hg : (dictGet h.active_touches seq).isSome = true
    · by_cases hlen2 : (dictErase h.active_touches seq).length = 0
      · by_cases hdr : h.tap_drag_active = true
        · simp only [step, on_touch_cancel, if_pos hg, if_pos hlen2, if_pos hdr]
          intro _
          trivial
        · simp only [step, on_touch_cancel, if_pos hg, if_pos hlen2, if_neg hdr]
          intro _
          cases hb : h.tap_drag_active
          · rfl
          · exact absurd hb hdr
      · simp only [step, on_touch_cancel, if_pos hg, if_neg hlen2]
        intro hnil
        exact absurd (by rw [hnil]; rfl) hlen2
    · by_cases hlen2 : h.active_touches.length = 0
      · by_cases hdr : h.tap_drag_active = true
        · simp only [step, on_touch_cancel, if_neg hg, if_pos hlen2, if_pos hdr]
          intro _
          trivial
        · simp only [step, on_touch_cancel, if_neg hg, if_pos hlen2, if_neg hdr]
          intro _
          cases hb : h.tap_drag_active
          · exact hb
          · exact absurd hb hdr
      · simp only [step, on_touch_cancel, if_neg hg, if_neg hlen2]
        exact hi

theorem runEvents_idleNoDrag (cfg : Config) (evs : List Ev) :
    ∀ h : Handler,
      (h.active_touches = [] → h.tap_drag_active = false) →
      ((runEvents cfg h evs).1.active_touches = [] →
        (runEvents cfg h evs).1.tap_drag_active = false) := by
  induction evs with
  | nil => intro h hi; exact hi
  | cons e es ih =>
    intro h hi
    simp only [runEvents]
    exact ih _ (step_idleNoDrag cfg h e hi)

/-- C4: if a completed single-finger tap is followed by a new first
finger-down within the tap-drag window (tap-drag enabled), the engine
presses the left button exactly once at that finger-down and releases it
exactly once when the session ends — whether it ends normally or by
cancel — leaving tap-drag inactive; and in every reachable state with no
active contacts the tap-drag left button is not held. -/
theorem tap_drag_lifecycle :
    (∀ (cfg : Config) (h : Handler) (seq : Nat) (x0 y0 t0 : ℚ) (es : List Ev),
        h.active_touches = [] →
        cfg.tap_drag_enabled = true →
        t0 - h.last_tap_time < cfg.tap_drag_window →
        endsSession cfg (step cfg h (Ev.begin seq x0 y0 t0)).1 es = true →
        countAct (runEvents cfg h (Ev.begin seq x0 y0 t0 :: es)).2
            (Action.click leftBtn true) = 1 ∧
        countAct (runEvents cfg h (Ev.begin seq x0 y0 t0 :: es)).2
            (Action.click leftBtn false) = 1 ∧
        (runEvents cfg h (Ev.begin seq x0 y0 t0 :: es)).1.tap_drag_active = false ∧
        (runEvents cfg h (Ev.begin seq x0 y0 t0 :: es)).1.active_touches = []) ∧
    (∀ (cfg : Config) (evs : List Ev),
        (runEvents cfg initHandler evs).1.active_touches = [] →
        (runEvents cfg initHandler evs).1.tap_drag_active = false) := by
  constructor
  · intro cfg h seq x0 y0 t0 es hidle hen hwin hE
    have hb := begin_idle_drag cfg h seq x0 y0 t0 hidle ⟨hen, hwin⟩
    have hstep : step cfg h (Ev.begin seq x0 y0 t0) =
        ({ h with
            active_touches := [(seq, mkTouch seq x0 y0 t0)]
            max_fingers_in_gesture := 1
            any_finger_moved := false
            first_touch_time := t0
            tap_drag_active := true
            pointer_accumulator_x := 0
            pointer_accumulator_y := 0
            scroll_accumulator_x := 0
            scroll_accumulator_y := 0 },
          [Action.click leftBtn true]) := by
      simp only [step]
      exact hb
    rw [hstep] at hE
    have hsess := drag_session_end cfg es
      { h with
          active_touches := [(seq, mkTouch seq x0 y0 t0)]
          max_fingers_in_gesture := 1
          any_finger_moved := false
          first_touch_time := t0
          tap_drag_active := true
          pointer_accumulator_x := 0
          pointer_accumulator_y := 0
          scroll_accumulator_x := 0
          scroll_accumulator_y := 0 }
      rfl (by simp) hE
    simp only [runEvents, hstep, countAct_append]
    refine ⟨?_, ?_, hsess.2.2.1, hsess.2.2.2⟩
    · rw [hsess.1]
      simp [countAct]
    · rw [hsess.2.1]
      simp [countAct, leftBtn]
  · intro cfg evs
    exact runEvents_idleNoDrag cfg evs initHandler (fun _ => rfl)

/-- Witness for C4: a finger-down 0.1 s after a tap enters tap-drag,
and a session consisting of that touch ending presses and releases the
left button exactly once each. -/
theorem tap_drag_lifecycle_witness :
    (countAct (runEvents defaultConfig initHandler
          (Ev.begin 0 0 0 (1 / 10) :: [Ev.touchEnd 0 2])).2
        (Action.click leftBtn true) = 1 ∧
      countAct (runEvents defaultConfig initHandler
          (Ev.begin 0 0 0 (1 / 10) :: [Ev.touchEnd 0 2])).2
        (Action.click leftBtn false) = 1 ∧
      (runEvents defaultConfig initHandler
          (Ev.begin 0 0 0 (1 / 10) :: [Ev.touchEnd 0 2])).1.tap_drag_active = false ∧
      (runEvents defaultConfig initHandler
          (Ev.begin 0 0 0 (1 / 10) :: [Ev.touchEnd 0 2])).1.active_touches = []) ∧
    (runEvents defaultConfig initHandler ([] : List Ev)).1.tap_drag_active = false :=
  ⟨tap_drag_lifecycle.1 defaultConfig initHandler 0 0 0 (1 / 10) [Ev.touchEnd 0 2]
      rfl rfl (by norm_num [initHandler, defaultConfig])
      (by norm_num [endsSession, step, on_touch_begin, on_touch_end, dictGet,
        dictSet, dictErase, initHandler, defaultConfig]),
    tap_drag_lifecycle.2 defaultConfig [] rfl⟩

/-! ## Virtual Touchpad Device queue (`yogaboard/input_device/uinput_touchpad.py`)

The producer-side methods (`click`, `tap`, `sync`, `touch_down`, ...) only
append `TouchEvent` values to `self.event_queue`; we embed the queue as a
list of events and each method as a function from queue to queue. -/

/-- Linux button code `BTN_LEFT`. -/
def BTN_LEFT : Nat := 0x110

/-- Linux button code `BTN_RIGHT`. -/
def BTN_RIGHT : Nat := 0x111

/-- Linux button code `BTN_MIDDLE`. -/
def BTN_MIDDLE : Nat := 0x112

/-- The `event_type` literals of the `TouchEvent` dataclass. -/
inductive TouchEventType where
  | down
  | move
  | up
  | sync
  | fingerCount
  | button
deriving DecidableEq, Repr

/-- The `TouchEvent` dataclass (defaults as in the Python source). -/
structure TouchEvent where
  event_type : TouchEventType
  slot : Nat := 0
  tracking_id : Int := 0
  x : Int := 0
  y : Int := 0
  finger_count : Nat := 0
  button : Nat := 0
  pressed : Bool := false
deriving DecidableEq, Repr

namespace UInputTouchpad

/-- The `BUTTON_MAP` class attribute. -/
def BUTTON_MAP : List (String × Nat) :=
  [(leftBtn, BTN_LEFT), (rightBtn, BTN_RIGHT), (middleBtn, BTN_MIDDLE)]

/-- `self.BUTTON_MAP.get(button)`. -/
def mapGet (l : List (String × Nat)) (k : String) : Option Nat :=
  match l with
  | [] => none
  | (m, c) :: rest => if m = k then some c else mapGet rest k

/-- The button `TouchEvent` built by `click`. -/
def buttonEvent (button_code : Nat) (pressed : Bool) : TouchEvent :=
  { event_type := TouchEventType.button
    button := button_code
    pressed := pressed }

/-- The sync `TouchEvent` built by `sync`. -/
def syncEvent : TouchEvent :=
  { event_type := TouchEventType.sync }

/-- The down `TouchEvent` built by `touch_down`. -/
def downEvent (slot : Nat) (tracking_id x y : Int) : TouchEvent :=
  { event_type := TouchEventType.down
    slot := slot
    tracking_id := tracking_id
    x := x
    y := y }

/-- `click(button, pressed)`: append one button event only when
`BUTTON_MAP.get(button)` is truthy (`if button_code:`). -/
def click (q : List TouchEvent) (button : String) (pressed : Bool) :
    List TouchEvent :=
  match mapGet BUTTON_MAP button with
  | some button_code =>
    if button_code = 0 then q
    else q ++ [buttonEvent button_code pressed]
  | none => q

/-- `sync()`: unconditionally append a sync event. -/
def sync (q : List TouchEvent) : List TouchEvent :=
  q ++ [syncEvent]

/-- `tap(button)`: click-press, sync, click-release, sync. -/
def tap (q : List TouchEvent) (button : String) : List TouchEvent :=
  sync (click (sync (click q button true)) button false)

/-- `touch_down(slot, tracking_id, x, y)`. -/
def touch_down (q : List TouchEvent) (slot : Nat) (tracking_id x y : Int) :
    List TouchEvent :=
  q ++ [downEvent slot tracking_id x y]

end UInputTouchpad

/-- An unknown button name used as a concrete counterexample input. -/
def sideBtn : String := "side"

/-- C10 counterexample: the claim says `tap` with an unknown button name
leaves the queue unchanged, but `tap("side")` on an empty queue enqueues
two sync events. -/
theorem tap_unknown_button_changes_queue :
    UInputTouchpad.tap ([] : List TouchEvent) sideBtn ≠ [] := by
  decide

/-- C10 (amended): for every button name outside {left, right, middle},
`click` enqueues nothing and does not raise; `tap` enqueues no button
event but still appends its two unconditional sync markers, so the queue
grows by exactly the two sync events. -/
theorem unknown_button_click_tap (b : String)
    (hb : b ≠ leftBtn ∧ b ≠ rightBtn ∧ b ≠ middleBtn) :
    (∀ (q : List TouchEvent) (p : Bool), UInputTouchpad.click q b p = q) ∧
    (∀ q : List TouchEvent,
      UInputTouchpad.tap q b =
        q ++ [UInputTouchpad.syncEvent, UInputTouchpad.syncEvent]) := by
  have hget : UInputTouchpad.mapGet UInputTouchpad.BUTTON_MAP b = none := by
    simp only [UInputTouchpad.BUTTON_MAP, UInputTouchpad.mapGet]
    rw [if_neg (fun hh => hb.1 hh.symm), if_neg (fun hh => hb.2.1 hh.symm),
      if_neg (fun hh => hb.2.2 hh.symm)]
  have hclick : ∀ (q : List TouchEvent) (p : Bool), UInputTouchpad.click q b p = q := by
    intro q p
    simp [UInputTouchpad.click, hget]
  refine ⟨hclick, ?_⟩
  intro q
  simp [UInputTouchpad.tap, UInputTouchpad.sync, hclick]

/-- Witness for C10's amended claim at the concrete name "side". -/
theorem unknown_button_click_tap_witness :
    (∀ (q : List TouchEvent) (p : Bool), UInputTouchpad.click q sideBtn p = q) ∧
    (∀ q : List TouchEvent,
      UInputTouchpad.tap q sideBtn =
        q ++ [UInputTouchpad.syncEvent, UInputTouchpad.syncEvent]) :=
  unknown_button_click_tap sideBtn (by refine ⟨?_, ?_, ?_⟩ <;> decide)

/-! ## Device worker lifecycle (C6)

`UInputKeyboard._event_loop` and `UInputTouchpad._event_loop` both run:
try creating the device (a sequence of system calls); on any exception,
print, set `self.running = False` and `return` — skipping the cleanup that
follows the main loop; otherwise drain the queue until `running` is
cleared and then destroy the device.  We embed one loop execution as a
pure function of the creation outcome and the queue contents.

For the touchpad, `_create_device` performs, in order: `os.open`
(step 0), fifteen capability ioctls and the `uinput_user_dev` write
(steps 1..18), and `UI_DEV_CREATE` (step 19).  `failAt = some k` means the
k-th call raises; the file descriptor is already open whenever `0 < k`. -/

/-- Result of one `_create_device` attempt: (succeeded, fd was opened). -/
def create_device_touchpad (failAt : Option Nat) : Bool × Bool :=
  match failAt with
  | none => (true, true)
  | some k => (false, decide (0 < k))

/-- Observable outcome of one run of `UInputTouchpad._event_loop`. -/
structure TouchpadLoopResult where
  fd_opened : Bool
  fd_closed : Bool
  running_after : Bool
  processed : Nat
deriving DecidableEq, Repr

/-- `UInputTouchpad._event_loop`, given the creation outcome and the queue
drained before shutdown.  On creation failure the Python code returns
before the `_destroy_device()` call at the end of the loop, so
`fd_closed` is false on that path even when the fd was opened. -/
def touchpad_event_loop (failAt : Option Nat) (queue : List TouchEvent) :
    TouchpadLoopResult :=
  let c := create_device_touchpad failAt
  if c.1 then
    { fd_opened := true, fd_closed := true, running_after := false,
      processed := queue.length }
  else
    { fd_opened := c.2, fd_closed := false, running_after := false,
      processed := 0 }

/-- Observable outcome of one run of `UInputKeyboard._event_loop`. -/
structure KeyboardLoopResult where
  device_created : Bool
  device_destroyed : Bool
  running_after : Bool
  processed : Nat
deriving DecidableEq, Repr

/-- `UInputKeyboard._event_loop`: `uinput.Device(...)` either succeeds or
raises before any handle exists, so nothing leaks on the failure path. -/
def keyboard_event_loop (create_ok : Bool) (queue : List (Nat × Bool)) :
    KeyboardLoopResult :=
  if create_ok then
    { device_created := true, device_destroyed := true, running_after := false,
      processed := queue.length }
  else
    { device_created := false, device_destroyed := false,
      running_after := false, processed := 0 }

/-- `UInputKeyboard.send_key`: a pure queue append — it cannot raise and
stays callable after the worker has terminated. -/
def send_key (q : List (Nat × Bool)) (key_code : Nat) (pressed : Bool) :
    List (Nat × Bool) :=
  q ++ [(key_code, pressed)]

/-- C6: evaluating the embedded worker loops at the failing input.  When a
touchpad capability-registration call after `os.open` raises (here
`UI_DEV_CREATE`, step 19), the worker terminates without crashing, the
producer methods remain pure queue appends (they cannot raise), and the
keyboard failure path creates nothing — but the touchpad file descriptor
is left open and is never destroyed, contradicting the claim that the
device handle is never created or destroyed exactly once. -/
theorem registration_failure_leaks_touchpad_fd :
    (touchpad_event_loop (some 19) []).running_after = false ∧
    (touchpad_event_loop (some 19) []).fd_opened = true ∧
    (touchpad_event_loop (some 19) []).fd_closed = false ∧
    (keyboard_event_loop false []).device_created = false ∧
    (keyboard_event_loop false []).device_destroyed = false ∧
    (keyboard_event_loop false []).running_after = false ∧
    (∀ (q : List (Nat × Bool)) (code : Nat) (p : Bool),
      send_key q code p = q ++ [(code, p)]) ∧
    (∀ (q : List TouchEvent) (slot : Nat) (tid x y : Int),
      UInputTouchpad.touch_down q slot tid x y =
        q ++ [UInputTouchpad.downEvent slot tid x y]) := by
  exact ⟨rfl, rfl, rfl, rfl, rfl, rfl, fun q code p => rfl, fun q s t x y => rfl⟩

/-! ## Slot allocation (C5)

The slot registers of `UInputTouchpad._send_event` (`_active_slots`)
record the slot carried by each queued `down`/`up` event, but the code
that chooses the slot for a new contact is not under `src/`: the gesture
handler present there never calls `touch_down`.  The allocator is
therefore modelled from the spec. -/

/-- `MAX_SLOTS` of `UInputTouchpad`. -/
def MAX_SLOTS : Nat := 10

/-- Modelled from the spec: the slot allocator of the feature-complete
handler variant, absent from `src/`.  Spec §3: a Slot is a bounded
resource 0..MAX_SLOTS-1; the free-list is reusable and kept sorted for
deterministic reuse order; slot 0 is the forced fallback when all slots
are exhausted; a slot is allocated on touch-begin and released on
touch-end/cancel.  `live` maps each live contact id to its slot. -/
structure SlotAllocator where
  free_slots : List Nat
  live : List (Nat × Nat)
deriving DecidableEq, Repr

namespace SlotAllocator

/-- Modelled from the spec: initially all of 0..MAX_SLOTS-1 are free. -/
def init : SlotAllocator :=
  { free_slots := List.range MAX_SLOTS, live := [] }

/-- Modelled from the spec: allocate the smallest free slot for a new
contact; when the free-list is exhausted fall back to slot 0. -/
def touch_down (a : SlotAllocator) (cid : Nat) : SlotAllocator × Nat :=
  match a.free_slots with
  | s :: rest => ({ free_slots := rest, live := (cid, s) :: a.live }, s)
  | [] => ({ a with live := (cid, 0) :: a.live }, 0)

/-- Look up the slot of a live contact. -/
def lookupSlot (l : List (Nat × Nat)) (cid : Nat) : Option Nat :=
  match l with
  | [] => none
  | (k, s) :: rest => if k = cid then some s else lookupSlot rest cid

/-- Remove a live contact record. -/
def eraseContact (l : List (Nat × Nat)) (cid : Nat) : List (Nat × Nat) :=
  match l with
  | [] => []
  | (k, s) :: rest => if k = cid then rest else (k, s) :: eraseContact rest cid

/-- Modelled from the spec: release the contact's slot back into the
sorted free-list; an unknown contact is silently ignored. -/
def touch_up (a : SlotAllocator) (cid : Nat) : SlotAllocator :=
  match lookupSlot a.live cid with
  | some s =>
    { free_slots := a.free_slots.orderedInsert (· ≤ ·) s
      live := eraseContact a.live cid }
  | none => a

end SlotAllocator

/-- A touch-begin or touch-end/cancel for contact `cid`. -/
inductive SlotEv where
  | down (cid : Nat)
  | up (cid : Nat)
deriving DecidableEq, Repr

/-- Run a sequence of contact events through the slot allocator. -/
def runSlots (a : SlotAllocator) : List SlotEv → SlotAllocator
  | [] => a
  | SlotEv.down cid :: es => runSlots (a.touch_down cid).1 es
  | SlotEv.up cid :: es => runSlots (a.touch_up cid) es

/-- True iff every touch-down in the sequence happens for a fresh contact
id while a slot is available (fewer than `MAX_SLOTS` live contacts). -/
def okRun (a : SlotAllocator) : List SlotEv → Bool
  | [] => true
  | SlotEv.down cid :: es =>
    (SlotAllocator.lookupSlot a.live cid).isNone &&
      decide (a.live.length < MAX_SLOTS) && okRun (a.touch_down cid).1 es
  | SlotEv.up cid :: es => okRun (a.touch_up cid) es

/-- The allocator invariant: contact ids and slots of live contacts are
duplicate-free, the free-list is duplicate-free and disjoint from the
live slots, and together they account for all `MAX_SLOTS` slots. -/
def SlotInv (a : SlotAllocator) : Prop :=
  (a.live.map Prod.fst).Nodup ∧
  (a.live.map Prod.snd).Nodup ∧
  a.free_slots.Nodup ∧
  (∀ s ∈ a.free_slots, s ∉ a.live.map Prod.snd) ∧
  a.free_slots.length + a.live.length = MAX_SLOTS

theorem lookupSlot_eq_none (l : List (Nat × Nat)) (cid : Nat)
    (h : SlotAllocator.lookupSlot l cid = none) : cid ∉ l.map Prod.fst := by
  induction l with
  | nil => simp
  | cons p rest ih =>
    obtain ⟨k, s⟩ := p
    by_cases hk : k = cid
    · simp [SlotAllocator.lookupSlot, hk] at h
    · simp only [SlotAllocator.lookupSlot, if_neg hk] at h
      simp only [List.map_cons, List.mem_cons]
      push_neg
      exact ⟨fun hh => hk hh.symm, ih h⟩

theorem lookupSlot_mem (l : List (Nat × Nat)) (cid s : Nat)
    (h : SlotAllocator.lookupSlot l cid = some s) : s ∈ l.map Prod.snd := by
  induction l with
  | nil => simp [SlotAllocator.lookupSlot] at h
  | cons p rest ih =>
    obtain ⟨k, t⟩ := p
    by_cases hk : k = cid
    · simp only [SlotAllocator.lookupSlot, if_pos hk, Option.some.injEq] at h
      simp [h]
    · simp only [SlotAllocator.lookupSlot, if_neg hk] at h
      simp only [List.map_cons, List.mem_cons]
      exact Or.inr (ih h)

theorem eraseContact_sublist (l : List (Nat × Nat)) (cid : Nat) :
    (SlotAllocator.eraseContact l cid).Sublist l := by
  induction l with
  | nil => simp [SlotAllocator.eraseContact]
  | cons p rest ih =>
    obtain ⟨k, t⟩ := p
    by_cases hk : k = cid
    · simp only [SlotAllocator.eraseContact, if_pos hk]
      exact List.sublist_cons_self _ _
    · simp only [SlotAllocator.eraseContact, if_neg hk]
      exact ih.cons₂ _

theorem eraseContact_length (l : List (Nat × Nat)) (cid s : Nat)
    (h : SlotAllocator.lookupSlot l cid = some s) :
    (SlotAllocator.eraseContact l cid).length + 1 = l.length := by
  induction l with
  | nil => simp [SlotAllocator.lookupSlot] at h
  | cons p rest ih =>
    obtain ⟨k, t⟩ := p
    by_cases hk : k = cid
    · simp [SlotAllocator.eraseContact, if_pos hk]
    · simp only [SlotAllocator.lookupSlot, if_neg hk] at h
      simp only [SlotAllocator.eraseContact, if_neg hk, List.length_cons]
      rw [← ih h]

theorem eraseContact_slot_not_mem (l : List (Nat × Nat)) (cid s : Nat)
    (hnd : (l.map Prod.snd).Nodup)
    (h : SlotAllocator.lookupSlot l cid = some s) :
    s ∉ (SlotAllocator.eraseContact l cid).map Prod.snd := by
  induction l with
  | nil => simp [SlotAllocator.lookupSlot] at h
  | cons p rest ih =>
    obtain ⟨k, t⟩ := p
    simp only [List.map_cons, List.nodup_cons] at hnd
    by_cases hk : k = cid
    · simp only [SlotAllocator.lookupSlot, if_pos hk, Option.some.injEq] at h
      simp only [SlotAllocator.eraseContact, if_pos hk]
      rw [← h]
      exact hnd.1
    · simp only [SlotAllocator.lookupSlot, if_neg hk] at h
      simp only [SlotAllocator.eraseContact, if_neg hk, List.map_cons,
        List.mem_cons]
      push_neg
      refine ⟨?_, ih hnd.2 h⟩
      intro hst
      exact hnd.1 (hst ▸ lookupSlot_mem rest cid s h)

theorem touch_down_preserves (a : SlotAllocator) (cid : Nat)
    (hfresh : SlotAllocator.lookupSlot a.live cid = none)
    (hlen : a.live.length < MAX_SLOTS) (hinv : SlotInv a) :
    SlotInv (a.touch_down cid).1 ∧ (a.touch_down cid).2 ∉ a.live.map Prod.snd := by
  obtain ⟨fs, lv⟩ := a
  obtain ⟨hk, hs, hf, hdis, hcount⟩ := hinv
  rcases fs with _ | ⟨s, rest⟩
  · simp only at hcount hlen
    simp at hcount
    omega
  · simp only at hfresh hlen hk hs hf hdis hcount
    simp only [List.nodup_cons] at hf
    have hsnot : s ∉ lv.map Prod.snd := hdis s (List.mem_cons_self _ _)
    simp only [SlotAllocator.touch_down]
    refine ⟨⟨?_, ?_, hf.2, ?_, ?_⟩, hsnot⟩
    · simp only [List.map_cons, List.nodup_cons]
      exact ⟨lookupSlot_eq_none lv cid hfresh, hk⟩
    · simp only [List.map_cons, List.nodup_cons]
      exact ⟨hsnot, hs⟩
    · intro t ht
      simp only [List.map_cons, List.mem_cons]
      push_neg
      constructor
      · intro hts
        exact hf.1 (hts ▸ ht)
      · exact hdis t (List.mem_cons_of_mem _ ht)
    · simp only [List.length_cons]
      simp only [List.length_cons] at hcount
      omega

theorem touch_up_preserves (a : SlotAllocator) (cid : Nat) (hinv : SlotInv a) :
    SlotInv (a.touch_up cid) := by
  obtain ⟨hk, hs, hf, hdis, hcount⟩ := hinv
  rcases hl : SlotAllocator.lookupSlot a.live cid with _ | s
  · simpa [SlotAllocator.touch_up, hl] using ⟨hk, hs, hf, hdis, hcount⟩
  · have hsmem : s ∈ a.live.map Prod.snd := lookupSlot_mem a.live cid s hl
    have hsfree : s ∉ a.free_slots := fun hin => hdis s hin hsmem
    have hperm : (a.free_slots.orderedInsert (· ≤ ·) s).Perm (s :: a.free_slots) :=
      List.perm_orderedInsert _ s a.free_slots
    have hsubk := (eraseContact_sublist a.live cid).map Prod.fst
    have hsubs := (eraseContact_sublist a.live cid).map Prod.snd
    refine ⟨?_, ?_, ?_, ?_, ?_⟩
    · simp only [SlotAllocator.touch_up, hl]
      exact hk.sublist hsubk
    · simp only [SlotAllocator.touch_up, hl]
      exact hs.sublist hsubs
    · simp only [SlotAllocator.touch_up, hl]
      exact hperm.nodup_iff.mpr (List.nodup_cons.mpr ⟨hsfree, hf⟩)
    · simp only [SlotAllocator.touch_up, hl]
      intro t ht
      have : t ∈ s :: a.free_slots := hperm.mem_iff.mp ht
      rcases List.mem_cons.mp this with hts | htf
      · rw [hts]
        exact eraseContact_slot_not_mem a.live cid s hs hl
      · intro hmem
        exact hdis t htf (hsubs.mem hmem)
    · simp only [SlotAllocator.touch_up, hl]
      rw [hperm.length_eq]
      have := eraseContact_length a.live cid s hl
      simp only [List.length_cons]
      omega

theorem okRun_inv (es : List SlotEv) :
    ∀ a : SlotAllocator, SlotInv a → okRun a es = true →
      SlotInv (runSlots a es) := by
  induction es with
  | nil => intro a hinv _; exact hinv
  | cons e es ih =>
    intro a hinv hok
    cases e with
    | down cid =>
      rw [show okRun a (SlotEv.down cid :: es) =
          ((SlotAllocator.lookupSlot a.live cid).isNone &&
            decide (a.live.length < MAX_SLOTS) &&
            okRun (a.touch_down cid).1 es) from rfl] at hok
      rw [Bool.and_eq_true, Bool.and_eq_true] at hok
      have hfresh : SlotAllocator.lookupSlot a.live cid = none :=
        Option.isNone_iff_eq_none.mp hok.1.1
      have hlen : a.live.length < MAX_SLOTS := of_decide_eq_true hok.1.2
      exact ih _ (touch_down_preserves a cid hfresh hlen hinv).1 hok.2
    | up cid =>
      rw [show okRun a (SlotEv.up cid :: es) =
          okRun (a.touch_up cid) es from rfl] at hok
      exact ih _ (touch_up_preserves a cid hinv) hok

/-- C5: (spec-modelled allocator) while slots are available — fewer than
`MAX_SLOTS` live contacts — the slot allocated to each fresh contact is
distinct from the slot of every currently-live contact, and along every
event sequence whose touch-downs happen with a slot available, the live
contacts' slots remain pairwise distinct (at most one live contact per
slot), with the full allocator invariant maintained. -/
theorem slot_allocation_unique :
    (∀ (a : SlotAllocator) (cid : Nat),
        SlotInv a →
        SlotAllocator.lookupSlot a.live cid = none →
        a.live.length < MAX_SLOTS →
        (a.touch_down cid).2 ∉ a.live.map Prod.snd ∧
        ((a.touch_down cid).1.live.map Prod.snd).Nodup) ∧
    (∀ es : List SlotEv, okRun SlotAllocator.init es = true →
        SlotInv (runSlots SlotAllocator.init es) ∧
        ((runSlots SlotAllocator.init es).live.map Prod.snd).Nodup) := by
  have hinit : SlotInv SlotAllocator.init := by
    refine ⟨by simp [SlotAllocator.init], by simp [SlotAllocator.init],
      ?_, ?_, by simp [SlotAllocator.init, MAX_SLOTS]⟩
    · simp [SlotAllocator.init]
      exact List.nodup_range _
    · simp [SlotAllocator.init]
  constructor
  · intro a cid hinv hfresh hlen
    have h := touch_down_preserves a cid hfresh hlen hinv
    exact ⟨h.2, h.1.2.1⟩
  · intro es hok
    have h := okRun_inv es SlotAllocator.init hinit hok
    exact ⟨h, h.2.1⟩

/-- Witness for C5: two downs and an up from the initial allocator. -/
theorem slot_allocation_unique_witness :
    ((SlotAllocator.init.touch_down 7).2 ∉
      SlotAllocator.init.live.map Prod.snd ∧
      ((SlotAllocator.init.touch_down 7).1.live.map Prod.snd).Nodup) ∧
    (SlotInv (runSlots SlotAllocator.init
        [SlotEv.down 1, SlotEv.down 2, SlotEv.up 1, SlotEv.down 3]) ∧
      ((runSlots SlotAllocator.init
        [SlotEv.down 1, SlotEv.down 2, SlotEv.up 1, SlotEv.down 3]).live.map
          Prod.snd).Nodup) :=
  ⟨slot_allocation_unique.1 SlotAllocator.init 7
      ⟨by decide, by decide, by decide, by decide, by decide⟩ (by decide) (by decide),
    slot_allocation_unique.2
      [SlotEv.down 1, SlotEv.down 2, SlotEv.up 1, SlotEv.down 3] (by decide)⟩

end Yogaboard
